import Mathlib

/-!
# DriveStation protocol core — formal model

A shallow embedding of the driver-station protocol core of the DriveStation
repository (`src-tauri/src/protocol/{types,connection}.rs`,
`src-tauri/src/gamepad/manager.rs`, `src-tauri/src/logging.rs`), together with
proofs of the specified properties.

Modelling conventions:
* Machine integers (`u8`, `u16`, `u32`, `i8`, `i16`) are `Nat`/`Int` with
  explicit `% 2^w` where the code can wrap. Wire frames are `List Nat` of byte
  values.
* `f32` quantities are modelled as exact rationals (`ℚ`); the few float
  operations the code performs on them (multiply by `127.0`, add an integer to
  a fraction with denominator 256, `u32 as f32` of small values) are exact in
  IEEE binary32 at every input the theorems below evaluate them at.
  `f32::from_bits` is modelled by `f32ToRat`.
* The asynchronous control loop (`protocol_loop`) is modelled as a step
  function over an explicit state; the 1-second link-watchdog comparison
  `last_recv.elapsed() > 1 s` is an oracle boolean on each send tick.
-/

namespace DriveStation

/-- Big-endian 16-bit read of two bytes (`u16::from_be_bytes`). -/
def be16 (hi lo : Nat) : Nat := hi * 256 + lo

/-- Big-endian byte pair of a 16-bit value (`u16::to_be_bytes`). -/
def be16Bytes (n : Nat) : List Nat := [n / 256 % 256, n % 256]

/-- Big-endian 32-bit read of four bytes (`u32::from_be_bytes`). -/
def be32 (b0 b1 b2 b3 : Nat) : Nat := ((b0 * 256 + b1) * 256 + b2) * 256 + b3

/-- Big-endian bytes of a 32-bit value (`write_u32::<BigEndian>`). -/
def be32Bytes (n : Nat) : List Nat :=
  [n / 16777216 % 256, n / 65536 % 256, n / 256 % 256, n % 256]

/-- Two's-complement byte of an `i8` value (`as u8` on an `i8`). -/
def i8ToByte (v : Int) : Nat := (v % 256).toNat

/-- Reads a byte back as an `i8` value. -/
def byteToI8 (b : Nat) : Int := if b < 128 then (b : Int) else (b : Int) - 256

/-- Big-endian byte pair of an `i16` (`write_i16::<BigEndian>`). -/
def i16ToBytes (p : Int) : List Nat :=
  let u := (p % 65536).toNat
  [u / 256, u % 256]

/-- Big-endian read of an `i16` from two bytes. -/
def bytesToI16 (hi lo : Nat) : Int :=
  let u := be16 hi lo
  if u < 32768 then (u : Int) else (u : Int) - 65536

/-- Truncation of a rational toward zero (semantics of Rust float-to-int `as`). -/
def ratTrunc (q : ℚ) : Int := if 0 ≤ q then ⌊q⌋ else ⌈q⌉

/-- Value of an IEEE-754 binary32 bit pattern as a rational (`f32::from_bits`).
Infinities and NaNs (exponent field 255) have no rational value and are mapped
to 0; theorems about decoded values hypothesise finite patterns. -/
def f32ToRat (bits : Nat) : ℚ :=
  let sign : Nat := bits / 2 ^ 31 % 2
  let expf : Nat := bits / 2 ^ 23 % 256
  let frac : Nat := bits % 2 ^ 23
  let mag : ℚ :=
    if expf = 0 then (frac : ℚ) / 2 ^ 149
    else if expf = 255 then 0
    else (2 ^ 23 + frac : ℚ) * 2 ^ expf / 2 ^ 150
  if sign = 1 then -mag else mag

/-! ## Data model (`protocol/types.rs`) -/

/-- `Mode` from `types.rs`. -/
inductive Mode where
  | Teleoperated
  | Autonomous
  | Test
deriving DecidableEq

/-- `Mode::to_bits`. -/
def Mode.to_bits : Mode → Nat
  | .Teleoperated => 0x00
  | .Autonomous => 0x02
  | .Test => 0x01

/-- `Mode::from_bits` (masks the low two bits). -/
def Mode.from_bits (bits : Nat) : Mode :=
  match bits &&& 0x03 with
  | 0x02 => .Autonomous
  | 0x01 => .Test
  | _ => .Teleoperated

/-- `Alliance` from `types.rs`. -/
inductive Alliance where
  | Red1
  | Red2
  | Red3
  | Blue1
  | Blue2
  | Blue3
deriving DecidableEq

/-- `Alliance::to_byte`. -/
def Alliance.to_byte : Alliance → Nat
  | .Red1 => 0
  | .Red2 => 1
  | .Red3 => 2
  | .Blue1 => 3
  | .Blue2 => 4
  | .Blue3 => 5

/-- `RobotState` from `types.rs`. `battery_voltage` is exact (on the wire it is
`int + frac/256`, exactly representable in binary32). `fms_connected` is kept
for completeness. -/
structure RobotState where
  connected : Bool
  code_running : Bool
  enabled : Bool
  estopped : Bool
  mode : Mode
  battery_voltage : ℚ
  brownout : Bool
  fms_connected : Bool
  sequence_number : Nat
deriving DecidableEq

/-- `RobotState::default`. -/
def RobotState.default : RobotState :=
  { connected := false, code_running := false, enabled := false, estopped := false,
    mode := .Teleoperated, battery_voltage := 0, brownout := false,
    fms_connected := false, sequence_number := 0 }

/-- `JoystickState` from `types.rs`: axes are `f32` (modelled as ℚ), buttons
booleans, POVs `i16` (modelled as `Int`). -/
structure JoystickState where
  axes : List ℚ
  buttons : List Bool
  povs : List Int
deriving DecidableEq

/-- `JoystickState::default`: 6 axes at 0, 16 buttons up, one POV at −1. -/
def JoystickState.default : JoystickState :=
  { axes := List.replicate 6 0, buttons := List.replicate 16 false, povs := [-1] }

/-- The diagnostic fields `parse_inbound_packet` writes (`diag.*` in
`connection.rs`). `cpu_usage`, `ram_usage`, `disk_usage`, `can_utilization`
are `f32` in the source, modelled as ℚ; the counters are `u32`. -/
structure DiagnosticData where
  cpu_usage : ℚ
  ram_usage : ℚ
  disk_usage : ℚ
  can_utilization : ℚ
  can_bus_off : Nat
  can_tx_full : Nat
deriving DecidableEq

/-- Default (zeroed) diagnostics. -/
def DiagnosticData.default : DiagnosticData :=
  { cpu_usage := 0, ram_usage := 0, disk_usage := 0, can_utilization := 0,
    can_bus_off := 0, can_tx_full := 0 }

/-! ## Outbound frame builder (`build_outbound_packet`) -/

/-- `(axis * 127.0).clamp(-128.0, 127.0) as i8` from the joystick-tag loop of
`build_outbound_packet` (Rust `clamp` then float-to-int truncation toward 0). -/
def axisToI8 (x : ℚ) : Int := ratTrunc (min 127 (max (-128) (x * 127)))

/-- The byte pushed for one axis (`val as u8`). -/
def axisToByte (x : ℚ) : Nat := i8ToByte (axisToI8 x)

/-- One packed button byte: the inner loop of `build_outbound_packet` ORs
`1 << (7 - bit)` for each pressed button `byte_idx*8 + bit`. -/
def buttonByte (buttons : List Bool) (byteIdx : Nat) : Nat :=
  (List.range 8).foldl
    (fun acc bit =>
      if byteIdx * 8 + bit < buttons.length ∧ buttons.getD (byteIdx * 8 + bit) false then
        acc ||| (1 <<< (7 - bit))
      else acc) 0

/-- The `ceil(count/8)` packed button bytes. -/
def packButtons (buttons : List Bool) : List Nat :=
  (List.range ((buttons.length + 7) / 8)).map (buttonByte buttons)

/-- One emitted `0x0C` joystick tag record (size byte, tag byte, payload). -/
def joystickTag (js : JoystickState) : List Nat :=
  let numButtons := js.buttons.length
  let buttonBytes := (numButtons + 7) / 8
  let dataSize := 1 + js.axes.length + 1 + buttonBytes + 1 + js.povs.length * 2
  [(1 + dataSize) % 256, 0x0C, js.axes.length % 256]
    ++ js.axes.map axisToByte
    ++ [numButtons % 256] ++ packButtons js.buttons
    ++ [js.povs.length % 256] ++ (js.povs.map i16ToBytes).flatten

/-- `days_to_date` from `connection.rs` (Howard Hinnant civil-from-days),
with the `as u16` / `as u8` casts made explicit. -/
def days_to_date (days : Nat) : Nat × Nat × Nat :=
  let z : Int := (days : Int) + 719468
  let era : Int := Int.ediv z 146097
  let doe : Nat := (Int.emod z 146097).toNat
  let yoe : Nat := (doe - doe / 1460 + doe / 36524 - doe / 146096) / 365
  let y : Nat := (Int.emod ((yoe : Int) + era * 400) 65536).toNat
  let doy : Nat := doe - (365 * yoe + yoe / 4 - yoe / 100)
  let mp : Nat := (5 * doy + 2) / 153
  let d : Nat := (doy - (153 * mp + 2) / 5 + 1) % 256
  let m : Nat := (if mp < 10 then mp + 3 else mp - 9) % 256
  let y2 : Nat := if m ≤ 2 then (y + 1) % 65536 else y
  (y2, m, d)

/-- The `0x0F` DateTime tag payload for a clock reading of `secs` seconds and
`micros` microseconds past the Unix epoch. -/
def dateTimeTag (secs micros : Nat) : List Nat :=
  let sec := secs % 60
  let minute := secs / 60 % 60
  let hour := secs / 3600 % 24
  let days := secs / 86400
  let ymd := days_to_date days
  [11, 0x0F] ++ be32Bytes micros
    ++ [sec, minute, hour, ymd.2.2, (ymd.2.1 + 255) % 256, (ymd.1 + 65536 - 1900) % 256]

/-- `DsState` from `connection.rs`. -/
structure DsState where
  mode : Mode
  enabled : Bool
  estop : Bool
  alliance : Alliance
  request_reboot : Bool
  request_restart_code : Bool
deriving DecidableEq

/-- `DsState::default`. -/
def DsState.default : DsState :=
  { mode := .Teleoperated, enabled := false, estop := false, alliance := .Red1,
    request_reboot := false, request_restart_code := false }

/-- The DateTime tag area of one outbound frame: present only on every 50th
sequence number, and only when the system clock read succeeded. -/
def dtArea (seq : Nat) (clock : Option (Nat × Nat)) : List Nat :=
  if seq % 50 = 0 then
    match clock with
    | some (secs, micros) => dateTimeTag secs micros
    | none => []
  else []

/-- `build_outbound_packet` from `connection.rs`. The system-clock reading made
inside the DateTime branch is passed in as `clock` (`none` models the `Err`
branch of `SystemTime::duration_since`). -/
def build_outbound_packet (seq : Nat) (state : DsState) (joysticks : List JoystickState)
    (clock : Option (Nat × Nat)) : List Nat :=
  let control : Nat :=
    (if state.estop then 0x80 else 0) ||| (if state.enabled then 0x04 else 0)
      ||| state.mode.to_bits
  let request : Nat :=
    (if state.request_reboot then 0x08 else 0)
      ||| (if state.request_restart_code then 0x04 else 0)
  let header := be16Bytes seq ++ [0x01, control, request, state.alliance.to_byte]
  let jsTags := ((joysticks.take 6).map joystickTag).flatten
  header ++ jsTags ++ dtArea seq clock

/-! ## Inbound frame parsing (`parse_inbound_packet`) -/

/-- Effect of one recognized inbound tag on the diagnostics (the `match tag`
arms of `parse_inbound_packet`). -/
def parseTag (diag : DiagnosticData) (tag : Nat) (d : List Nat) : DiagnosticData :=
  if tag = 0x04 then
    if 4 ≤ d.length then
      { diag with disk_usage := (be32 (d.getD 0 0) (d.getD 1 0) (d.getD 2 0) (d.getD 3 0) : ℚ) }
    else diag
  else if tag = 0x05 then
    if 12 ≤ d.length then
      let numCpus := d.getD 0 0
      if 0 < numCpus ∧ 1 + numCpus * 4 ≤ d.length then
        let total : ℚ :=
          (List.range numCpus).foldl
            (fun t c =>
              t + f32ToRat (be32 (d.getD (1 + c * 4) 0) (d.getD (2 + c * 4) 0)
                    (d.getD (3 + c * 4) 0) (d.getD (4 + c * 4) 0))) 0
        { diag with cpu_usage := total / (numCpus : ℚ) }
      else diag
    else diag
  else if tag = 0x06 then
    if 4 ≤ d.length then
      { diag with ram_usage := f32ToRat (be32 (d.getD 0 0) (d.getD 1 0) (d.getD 2 0) (d.getD 3 0)) }
    else diag
  else if tag = 0x0E then
    if 14 ≤ d.length then
      { diag with
          can_utilization :=
            f32ToRat (be32 (d.getD 0 0) (d.getD 1 0) (d.getD 2 0) (d.getD 3 0)),
          can_bus_off := be32 (d.getD 4 0) (d.getD 5 0) (d.getD 6 0) (d.getD 7 0),
          can_tx_full := be32 (d.getD 8 0) (d.getD 9 0) (d.getD 10 0) (d.getD 11 0) }
    else diag
  else diag

/-- The `size/tag/data` walk of `parse_inbound_packet`, expressed on the byte
list from the current index: `size = 0` or a size overrunning the frame
terminates the walk; otherwise the record is dispatched and the walk advances
`1 + size` bytes. -/
def parseTags (diag : DiagnosticData) : List Nat → DiagnosticData
  | [] => diag
  | size :: rest =>
    if size = 0 ∨ rest.length < size then diag
    else
      let tag := rest.getD 0 0
      let tag_data := (rest.drop 1).take (size - 1)
      parseTags (parseTag diag tag tag_data) (rest.drop size)
termination_by l => l.length
decreasing_by
  simp only [List.length_drop, List.length_cons]
  omega

/-- `parse_inbound_packet` from `connection.rs`: frames shorter than 7 bytes
are dropped; the fixed fields come from bytes 0–6 and the tag walk starts at
byte 8. -/
def parse_inbound_packet (data : List Nat) (robot : RobotState) (diag : DiagnosticData) :
    RobotState × DiagnosticData :=
  if data.length < 7 then (robot, diag)
  else
    let status := data.getD 3 0
    let r : RobotState :=
      { robot with
          sequence_number := be16 (data.getD 0 0) (data.getD 1 0),
          estopped := status &&& 0x80 != 0,
          brownout := status &&& 0x10 != 0,
          enabled := status &&& 0x04 != 0,
          mode := Mode.from_bits status,
          code_running := (data.getD 4 0) &&& 0x20 != 0,
          battery_voltage := (data.getD 5 0 : ℚ) + (data.getD 6 0 : ℚ) / 256,
          connected := true }
    (r, parseTags diag (data.drop 8))

/-! ## Control loop (`protocol_loop`) -/

/-- `DsCommand` from `connection.rs`. -/
inductive DsCommand where
  | SetTeamNumber (team : Nat)
  | SetMode (mode : Mode)
  | Enable
  | Disable
  | EStop
  | SetAlliance (alliance : Alliance)
  | RebootRio
  | RestartCode
  | SetTargetIp (ip : String)
deriving DecidableEq

/-- `team_to_ip` from `connection.rs`. -/
def team_to_ip (team : Nat) : String :=
  if team = 0 then "127.0.0.1"
  else "10." ++ toString (team / 100) ++ "." ++ toString (team % 100) ++ ".2"

/-- The mutable state of `protocol_loop`: the local variables that persist
across iterations of the `select!` loop. The two booleans record whether the
corresponding socket bind succeeded. -/
structure LoopState where
  team_number : Nat
  target_ip : String
  ds_state : DsState
  robot_state : RobotState
  diag : DiagnosticData
  sequence : Nat
  send_socket : Bool
  recv_socket : Bool
deriving DecidableEq

/-- The three kinds of `select!` arms that change loop state: a command from
the frontend, a 20 ms send tick (`stale` is the oracle for
`last_recv.elapsed() > Duration::from_secs(1)`), and an inbound datagram. -/
inductive LoopEv where
  | cmd (c : DsCommand)
  | tick (stale : Bool)
  | recv (frame : List Nat)

/-- One iteration of `protocol_loop`, transcribed arm by arm from the source. -/
def loopStep (s : LoopState) (e : LoopEv) : LoopState :=
  match e with
  | .cmd c =>
    match c with
    | .SetTeamNumber team =>
      { s with team_number := team, target_ip := team_to_ip team,
               robot_state := RobotState.default,
               ds_state := { s.ds_state with enabled := false } }
    | .SetMode m =>
      { s with ds_state := { s.ds_state with mode := m, enabled := false } }
    | .Enable =>
      if s.ds_state.estop then s
      else { s with ds_state := { s.ds_state with enabled := true } }
    | .Disable => { s with ds_state := { s.ds_state with enabled := false } }
    | .EStop =>
      { s with ds_state := { s.ds_state with estop := true, enabled := false } }
    | .SetAlliance a => { s with ds_state := { s.ds_state with alliance := a } }
    | .RebootRio =>
      { s with ds_state :=
          { s.ds_state with request_reboot := true, estop := false, enabled := false } }
    | .RestartCode =>
      { s with ds_state := { s.ds_state with request_restart_code := true } }
    | .SetTargetIp ip => { s with target_ip := ip }
  | .tick stale =>
    if s.send_socket then
      let s1 := { s with
        sequence := (s.sequence + 1) % 65536,
        ds_state := { s.ds_state with request_reboot := false, request_restart_code := false } }
      if stale then
        let ds2 :=
          if s1.robot_state.connected then
            { s1.ds_state with estop := false, enabled := false }
          else s1.ds_state
        { s1 with ds_state := ds2,
                  robot_state := { s1.robot_state with
                    connected := false, battery_voltage := 0,
                    code_running := false, enabled := false } }
      else s1
    else s
  | .recv frame =>
    if s.recv_socket then
      let rd := parse_inbound_packet frame s.robot_state s.diag
      { s with robot_state := rd.1, diag := rd.2 }
    else s

/-- The state `protocol_loop` initialises before entering its loop. -/
def initLoopState (sendSock recvSock : Bool) : LoopState :=
  { team_number := 0, target_ip := team_to_ip 0, ds_state := DsState.default,
    robot_state := RobotState.default, diag := DiagnosticData.default,
    sequence := 0, send_socket := sendSock, recv_socket := recvSock }

/-! ## Gamepad manager (`gamepad/manager.rs`) -/

/-- `TrackedGamepad` from `manager.rs` (the D-pad latch booleans are omitted:
they feed only `povs[0]` inside `state` and play no role in slot handling). -/
structure TrackedGamepad where
  gilrs_id : Nat
  name : String
  slot : Nat
  state : JoystickState
deriving DecidableEq

/-- `GamepadManager`'s slot-relevant state: the tracked list and the
`locked_slots` map, modelled as an association list with unique keys
(`HashMap<usize, String>`). -/
structure GMState where
  gamepads : List TrackedGamepad
  locked_slots : List (Nat × String)
deriving DecidableEq

/-- The empty manager (no devices connected at startup). -/
def GMState.init : GMState := { gamepads := [], locked_slots := [] }

/-- Lookup in the locked-slot map (`locked_slots.contains_key` /
`locked_slots.get`). -/
def lockLookup (locks : List (Nat × String)) (slot : Nat) : Option String :=
  (locks.find? (fun p => p.1 = slot)).map (fun p => p.2)

/-- `GamepadManager::first_available_slot`: the first slot in 0..6 neither
occupied nor lock-reserved, else `gamepads.len()`. -/
def firstAvailableSlot (st : GMState) : Nat :=
  ((List.range 6).find? (fun s =>
      !(st.gamepads.any (fun g => g.slot = s)) && (lockLookup st.locked_slots s).isNone)).getD
    st.gamepads.length

/-- `GamepadManager::find_locked_slot`: a locked slot recorded for this device
name, if any (HashMap iteration order is unspecified; the model uses the
association-list order). -/
def findLockedSlot (st : GMState) (name : String) : Option Nat :=
  (st.locked_slots.find? (fun p => p.2 = name)).map (fun p => p.1)

/-- The `EventType::Connected` arm of `GamepadManager::poll`. -/
def gmConnect (st : GMState) (id : Nat) (name : String) : GMState :=
  let slot :=
    match findLockedSlot st name with
    | some locked => locked
    | none => firstAvailableSlot st
  { st with gamepads := st.gamepads ++
      [{ gilrs_id := id, name := name, slot := slot, state := JoystickState.default }] }

/-- The `EventType::Disconnected` arm: `gamepads.retain(|g| g.gilrs_id != id)`.
Locked-slot reservations are kept. -/
def gmDisconnect (st : GMState) (id : Nat) : GMState :=
  { st with gamepads := st.gamepads.filter (fun g => g.gilrs_id ≠ id) }

/-- `position(|g| g.slot == s)`: index of the first tracked gamepad in slot `s`. -/
def slotIdx (l : List TrackedGamepad) (s : Nat) : Option Nat :=
  match l with
  | [] => none
  | g :: rest => if g.slot = s then some 0 else (slotIdx rest s).map (· + 1)

/-- `self.gamepads[i].slot = s`. -/
def setSlotAt (l : List TrackedGamepad) (i : Nat) (s : Nat) : List TrackedGamepad :=
  match l[i]? with
  | some g => l.set i { g with slot := s }
  | none => l

/-- `GamepadManager::move_to_slot`. -/
def gmMoveToSlot (st : GMState) (from_slot to_slot : Nat) : GMState :=
  if from_slot = to_slot ∨ 6 ≤ from_slot ∨ 6 ≤ to_slot then st
  else
    match slotIdx st.gamepads from_slot, slotIdx st.gamepads to_slot with
    | some fi, some ti =>
      { st with gamepads := setSlotAt (setSlotAt st.gamepads fi to_slot) ti from_slot }
    | some fi, none => { st with gamepads := setSlotAt st.gamepads fi to_slot }
    | _, _ => st

/-- `GamepadManager::lock_slot`: records the current occupant's name for the
slot (`HashMap::insert` overwrites any previous entry). -/
def gmLockSlot (st : GMState) (slot : Nat) : GMState :=
  match st.gamepads.find? (fun g => g.slot = slot) with
  | some gp =>
    { st with locked_slots :=
        (slot, gp.name) :: st.locked_slots.filter (fun p => p.1 ≠ slot) }
  | none => st

/-- `GamepadManager::unlock_slot`. -/
def gmUnlockSlot (st : GMState) (slot : Nat) : GMState :=
  { st with locked_slots := st.locked_slots.filter (fun p => p.1 ≠ slot) }

/-- The slot-affecting operations of the gamepad manager. -/
inductive GMOp where
  | connect (id : Nat) (name : String)
  | disconnect (id : Nat)
  | moveToSlot (from_slot to_slot : Nat)
  | lockSlot (slot : Nat)
  | unlockSlot (slot : Nat)

/-- Dispatch one manager operation. -/
def gmStep (st : GMState) : GMOp → GMState
  | .connect id name => gmConnect st id name
  | .disconnect id => gmDisconnect st id
  | .moveToSlot f t => gmMoveToSlot st f t
  | .lockSlot s => gmLockSlot st s
  | .unlockSlot s => gmUnlockSlot st s

/-- `GamepadManager::sync_joystick_state`: the published snapshot is sized to
the maximum occupied slot plus one and filled from the tracked gamepads. -/
def syncJoystickState (gamepads : List TrackedGamepad) : List JoystickState :=
  let maxSlot := (gamepads.map (fun g => g.slot)).foldl max 0
  let base := List.replicate (maxSlot + 1) JoystickState.default
  gamepads.foldl (fun js gp => if gp.slot < js.length then js.set gp.slot gp.state else js) base

/-! ## TCP telemetry console parsing (`logging.rs`) -/

/-- ASCII whitespace bytes (the sub-U+0080 part of Rust `char::is_whitespace`,
which `trim_end` uses; multi-byte Unicode whitespace is outside the byte
model). -/
def isWsByte (b : Nat) : Bool :=
  b = 9 || b = 10 || b = 11 || b = 12 || b = 13 || b = 32

/-- `str::trim_end` on a byte string. -/
def trimEnd (s : List Nat) : List Nat := (s.reverse.dropWhile isWsByte).reverse

/-- `read_prefixed_string` from `logging.rs`: a `u16 BE` length followed by
that many bytes, trailing whitespace stripped; returns the string and the
offset just past it. Strings are byte lists (`from_utf8_lossy` is the
identity on the byte level for the ASCII data the claims evaluate). -/
def read_prefixed_string (data : List Nat) (offset : Nat) : Option (List Nat × Nat) :=
  if data.length < offset + 2 then none
  else
    let len := be16 (data.getD offset 0) (data.getD (offset + 1) 0)
    let start := offset + 2
    if data.length < start + len then none
    else some (trimEnd ((data.drop start).take len), start + len)

/-- `ConsoleMessage` as constructed in `logging.rs`. `timestamp` keeps the raw
big-endian `f32` bits (no claim concerns its numeric value); `message` is the
byte string. -/
structure ConsoleMessage where
  timestamp : Nat
  message : List Nat
  is_error : Bool
  sequence : Nat
deriving DecidableEq

/-- The console-entry effect of one framed TCP record (`read_console_stream`,
tags `0x0C` and `0x0B`; the remaining tags feed power/version sinks and emit
no console entry). `payload` is the `size`-byte body: tag byte then data. -/
def consoleMessageOf (payload : List Nat) : Option ConsoleMessage :=
  match payload with
  | [] => none
  | tag :: data =>
    if tag = 0x0C then
      if 6 ≤ data.length then
        let message := trimEnd (data.drop 6)
        if message ≠ [] then
          some { timestamp := be32 (data.getD 0 0) (data.getD 1 0) (data.getD 2 0) (data.getD 3 0),
                 message := message, is_error := false,
                 sequence := be16 (data.getD 4 0) (data.getD 5 0) }
        else none
      else none
    else if tag = 0x0B then
      if 13 ≤ data.length then
        let flags := data.getD 12 0
        let offset0 := 13
        let details := read_prefixed_string data offset0
        let offset1 := match details with | some (_, next) => next | none => offset0
        let location := read_prefixed_string data offset1
        let offset2 := match location with | some (_, next) => next | none => offset1
        let callstack := read_prefixed_string data offset2
        let details_str := (details.map (fun p => p.1)).getD []
        let location_str := (location.map (fun p => p.1)).getD []
        let callstack_str := (callstack.map (fun p => p.1)).getD []
        let message := details_str
        let message := if location_str ≠ [] then message ++ [32, 64, 32] ++ location_str else message
        let message := if callstack_str ≠ [] then message ++ [10] ++ callstack_str else message
        if message ≠ [] then
          some { timestamp := be32 (data.getD 0 0) (data.getD 1 0) (data.getD 2 0) (data.getD 3 0),
                 message := message, is_error := flags &&& 0x01 != 0,
                 sequence := be16 (data.getD 4 0) (data.getD 5 0) }
        else none
      else if 6 ≤ data.length then
        let message := trimEnd (data.drop 6)
        if message ≠ [] then
          some { timestamp := be32 (data.getD 0 0) (data.getD 1 0) (data.getD 2 0) (data.getD 3 0),
                 message := message, is_error := true,
                 sequence := be16 (data.getD 4 0) (data.getD 5 0) }
        else none
      else none
    else none

/-! ## Auxiliary observers and spec-modelled definitions -/

/-- Count of `size/tag/data` records with tag byte `t` in a tag area, walking
the same framing as the parsers. -/
def countTag (t : Nat) : List Nat → Nat
  | [] => 0
  | size :: rest =>
    if size = 0 ∨ rest.length < size then 0
    else (if rest.getD 0 0 = t then 1 else 0) + countTag t (rest.drop size)
termination_by l => l.length
decreasing_by
  simp only [List.length_drop, List.length_cons]
  omega

/-- A decoded joystick record: i8 axis values, button booleans, i16 POVs. -/
structure DecodedJoystick where
  axes : List Int
  buttons : List Bool
  povs : List Int
deriving DecidableEq

/-- Modelled from the spec: decoder for one `0x0C` joystick payload per the
§4.1 layout (the repository contains no decoder for DS→robot frames — the
robot is the peer): axes count then i8 axes; button count then MSB-first
packed bytes (bit 7 = button 0); POV count then big-endian i16 POVs. -/
def decodeJoystickData (d : List Nat) : DecodedJoystick :=
  let axesCount := d.headD 0
  let r1 := d.tail
  let axes := (r1.take axesCount).map byteToI8
  let buttonCount := (r1.drop axesCount).headD 0
  let r2 := (r1.drop axesCount).tail
  let packed := r2.take ((buttonCount + 7) / 8)
  let buttons := (List.range buttonCount).map (fun k =>
    Nat.testBit (packed.getD (k / 8) 0) (7 - k % 8))
  let povCount := (r2.drop ((buttonCount + 7) / 8)).headD 0
  let r3 := (r2.drop ((buttonCount + 7) / 8)).tail
  let povs := (List.range povCount).map (fun k =>
    bytesToI16 (r3.getD (2 * k) 0) (r3.getD (2 * k + 1) 0))
  { axes := axes, buttons := buttons, povs := povs }

/-- Modelled from the spec: walk the outbound tag area with the documented
`size/tag/data` framing and decode every `0x0C` record. -/
def decodeJoystickRecords : List Nat → List DecodedJoystick
  | [] => []
  | size :: rest =>
    if size = 0 ∨ rest.length < size then []
    else
      let tail := decodeJoystickRecords (rest.drop size)
      if rest.getD 0 0 = 0x0C then decodeJoystickData ((rest.drop 1).take (size - 1)) :: tail
      else tail
termination_by l => l.length
decreasing_by
  simp only [List.length_drop, List.length_cons]
  omega

/-- Modelled from the spec: the documented axis quantization
`round(clamp(x,−1,1) · 127)`, rounding half away from zero. -/
def specAxisQuantize (x : ℚ) : Int :=
  let y := min 1 (max (-1) x) * 127
  if 0 ≤ y then ⌊y + 1 / 2⌋ else -⌊-y + 1 / 2⌋

/-- The image of a joystick under the outbound encoding: axes quantized to i8
by the code's conversion, buttons and POVs exact. -/
def quantizeJoystick (js : JoystickState) : DecodedJoystick :=
  { axes := js.axes.map axisToI8, buttons := js.buttons, povs := js.povs }

/-- Modelled from the spec: the §4.1 "0x0C Joystick" record — axes count then
i8 axes; button count then `ceil(count/8)` bytes whose value is the sum of
`2^(7-b)` over pressed buttons `8j+b` (MSB-first, bit 7 = button 0); POV count
then big-endian i16 POVs; size byte `1 + |payload|`. The axis mapping is the
truncation the code performs (the documented rounding fails; see the C5
counterexample). -/
def specJoystickRecord (js : JoystickState) : List Nat :=
  let axes := js.axes.map axisToByte
  let btnBytes := (List.range ((js.buttons.length + 7) / 8)).map (fun j =>
    ((List.range 8).map (fun b =>
        if js.buttons.getD (8 * j + b) false then 2 ^ (7 - b) else 0)).sum)
  let povBytes := (js.povs.map i16ToBytes).flatten
  let payload := [js.axes.length % 256] ++ axes ++ [js.buttons.length % 256] ++ btnBytes
      ++ [js.povs.length % 256] ++ povBytes
  [(1 + payload.length) % 256, 0x0C] ++ payload

/-- The §3 `JoystickSnapshot` well-formedness the spec fixes and the gamepad
manager produces: 6 axes, 16 buttons, a single POV in i16 range. -/
def wfJoystick (js : JoystickState) : Prop :=
  js.axes.length = 6 ∧ js.buttons.length = 16 ∧ js.povs.length = 1 ∧
    ∀ p ∈ js.povs, -32768 ≤ p ∧ p < 32768

instance (js : JoystickState) : Decidable (wfJoystick js) := by
  unfold wfJoystick
  infer_instance

/-! ## Control-loop theorems (C1, C2, C9) -/

/-- The commands C1 quantifies over: `Enable`, `SetMode`, `SetAlliance`. -/
def benignCmd (c : DsCommand) : Prop :=
  c = .Enable ∨ (∃ m, c = .SetMode m) ∨ (∃ a, c = .SetAlliance a)

/-- One loop step preserves `enabled → ¬estop`. -/
theorem loopStep_safe (s : LoopState) (e : LoopEv)
    (h : s.ds_state.enabled = true → s.ds_state.estop = false) :
    (loopStep s e).ds_state.enabled = true → (loopStep s e).ds_state.estop = false := by
  cases e with
  | cmd c =>
    cases c <;> simp only [loopStep] <;>
      first
        | (exact h)
        | (simp)
        | (split <;> simp_all)
  | tick stale =>
    simp only [loopStep]
    split
    · split
      · split <;> simp_all
      · simp_all
    · exact h
  | recv frame =>
    simp only [loopStep]
    split
    · exact h
    · exact h

/-- Folding loop steps preserves `enabled → ¬estop`. -/
theorem foldl_loopStep_safe (evs : List LoopEv) (s : LoopState)
    (h : s.ds_state.enabled = true → s.ds_state.estop = false) :
    (evs.foldl loopStep s).ds_state.enabled = true →
      (evs.foldl loopStep s).ds_state.estop = false := by
  induction evs generalizing s with
  | nil => exact h
  | cons e evs ih => exact ih (loopStep s e) (loopStep_safe s e h)

/-- While `estop` is latched and the robot is disabled, `Enable`, `SetMode` and
`SetAlliance` leave both flags alone. -/
theorem loopStep_benign (s : LoopState) (c : DsCommand) (hb : benignCmd c)
    (he : s.ds_state.estop = true) (hd : s.ds_state.enabled = false) :
    (loopStep s (.cmd c)).ds_state.estop = true ∧
      (loopStep s (.cmd c)).ds_state.enabled = false := by
  rcases hb with rfl | ⟨m, rfl⟩ | ⟨a, rfl⟩ <;> simp [loopStep, he, hd]

/-- C1: E-stop is sticky. `EStop` latches `estop` and drops `enabled`; in
every state reachable from the loop's initial state, `enabled ⇒ ¬estop`; from
any estopped (hence disabled) state, no sequence of `Enable`/`SetMode`/
`SetAlliance` commands re-enables the robot or clears `estop`; and `Enable`
is silently ignored (the state is unchanged) while `estop` is set. -/
theorem C1_estop_sticky :
    (∀ s : LoopState, (loopStep s (.cmd .EStop)).ds_state.estop = true ∧
        (loopStep s (.cmd .EStop)).ds_state.enabled = false)
    ∧ (∀ (sendSock recvSock : Bool) (evs : List LoopEv),
        (evs.foldl loopStep (initLoopState sendSock recvSock)).ds_state.enabled = true →
        (evs.foldl loopStep (initLoopState sendSock recvSock)).ds_state.estop = false)
    ∧ (∀ (s : LoopState) (cs : List DsCommand), s.ds_state.estop = true →
        s.ds_state.enabled = false → (∀ c ∈ cs, benignCmd c) →
        ((cs.map LoopEv.cmd).foldl loopStep s).ds_state.estop = true ∧
        ((cs.map LoopEv.cmd).foldl loopStep s).ds_state.enabled = false)
    ∧ (∀ s : LoopState, s.ds_state.estop = true → loopStep s (.cmd .Enable) = s) := by
  refine ⟨?_, ?_, ?_, ?_⟩
  · intro s; simp [loopStep]
  · intro sendSock recvSock evs
    exact foldl_loopStep_safe evs _ (by simp [initLoopState, DsState.default])
  · intro s cs
    induction cs generalizing s with
    | nil => intro he hd _; exact ⟨he, hd⟩
    | cons c cs ih =>
      intro he hd hb
      have hstep := loopStep_benign s c (hb c (by simp)) he hd
      simpa using ih (loopStep s (.cmd c)) hstep.1 hstep.2 (fun x hx => hb x (by simp [hx]))
  · intro s h; simp [loopStep, h]

/-- Witness for C1 at concrete inputs: after `EStop`, the command sequence
`Enable, SetMode Autonomous, SetAlliance Blue2` leaves the robot estopped and
disabled, and `Enable` alone is a no-op. -/
theorem C1_estop_sticky_witness :
    ((([DsCommand.Enable, .SetMode .Autonomous, .SetAlliance .Blue2].map LoopEv.cmd).foldl loopStep
        (loopStep (initLoopState true true) (.cmd .EStop))).ds_state.estop = true
      ∧ (([DsCommand.Enable, .SetMode .Autonomous, .SetAlliance .Blue2].map LoopEv.cmd).foldl loopStep
        (loopStep (initLoopState true true) (.cmd .EStop))).ds_state.enabled = false)
    ∧ loopStep (loopStep (initLoopState true true) (.cmd .EStop)) (.cmd .Enable)
        = loopStep (initLoopState true true) (.cmd .EStop) := by
  constructor
  · exact C1_estop_sticky.2.2.1 _ _ (by simp [loopStep, initLoopState])
      (by simp [loopStep, initLoopState]) (by simp [benignCmd])
  · exact C1_estop_sticky.2.2.2 _ (by simp [loopStep, initLoopState])

/-- C2 (amended): on a send tick with the link stale for more than one
second, `RobotStatus` is forced to `connected=false`, `batteryVoltage=0`,
`codeRunning=false`, `enabled=false`; the driver-station `estop` flag is
cleared only when the robot was connected at that tick (the
connected→disconnected transition), not in every stale state. -/
theorem C2_watchdog_tick (s : LoopState) (h : s.send_socket = true) :
    ((loopStep s (.tick true)).robot_state.connected = false ∧
     (loopStep s (.tick true)).robot_state.battery_voltage = 0 ∧
     (loopStep s (.tick true)).robot_state.code_running = false ∧
     (loopStep s (.tick true)).robot_state.enabled = false) ∧
    (s.robot_state.connected = true →
      (loopStep s (.tick true)).ds_state.estop = false ∧
      (loopStep s (.tick true)).ds_state.enabled = false) := by
  constructor
  · simp [loopStep, h]
  · intro hc; simp [loopStep, h, hc]

/-- Witness for C2: a connected state with a stale link is fully cleared on
the next tick, including `estop`. -/
theorem C2_watchdog_tick_witness :
    ((loopStep { initLoopState true true with
        robot_state := { RobotState.default with connected := true },
        ds_state := { DsState.default with estop := true } } (.tick true)).robot_state.connected = false ∧
     (loopStep { initLoopState true true with
        robot_state := { RobotState.default with connected := true },
        ds_state := { DsState.default with estop := true } } (.tick true)).robot_state.battery_voltage = 0 ∧
     (loopStep { initLoopState true true with
        robot_state := { RobotState.default with connected := true },
        ds_state := { DsState.default with estop := true } } (.tick true)).robot_state.code_running = false ∧
     (loopStep { initLoopState true true with
        robot_state := { RobotState.default with connected := true },
        ds_state := { DsState.default with estop := true } } (.tick true)).robot_state.enabled = false) ∧
    ((loopStep { initLoopState true true with
        robot_state := { RobotState.default with connected := true },
        ds_state := { DsState.default with estop := true } } (.tick true)).ds_state.estop = false ∧
     (loopStep { initLoopState true true with
        robot_state := { RobotState.default with connected := true },
        ds_state := { DsState.default with estop := true } } (.tick true)).ds_state.enabled = false) :=
  ⟨(C2_watchdog_tick _ rfl).1, (C2_watchdog_tick _ rfl).2 rfl⟩

/-- C2 counterexample: in a state that was never connected
(`robot_state.connected = false`) with `estop` latched, a stale send tick does
NOT clear the driver-station estop flag, contradicting the claim's "for every
such state, including states in which the robot was never connected". -/
theorem C2_watchdog_never_connected_cex :
    ({ initLoopState true true with
        ds_state := { DsState.default with estop := true } } : LoopState).robot_state.connected = false ∧
    (loopStep { initLoopState true true with
        ds_state := { DsState.default with estop := true } } (.tick true)).ds_state.estop = true := by
  constructor
  · simp [initLoopState, RobotState.default]
  · simp [loopStep, initLoopState, RobotState.default]

/-- C9 (amended): `SetTeamNumber n` points the target at `team_to_ip n`
(`10.<n/100>.<n%100>.2`, or `127.0.0.1` for team 0), resets `RobotStatus` to
default and disables; `SetTargetIp ip` overrides the target address but —
unlike the claim — does not reset `RobotStatus` (it changes nothing else). -/
theorem C9_target_address :
    (∀ (s : LoopState) (n : Nat),
        (loopStep s (.cmd (.SetTeamNumber n))).target_ip = team_to_ip n ∧
        (loopStep s (.cmd (.SetTeamNumber n))).robot_state = RobotState.default ∧
        (loopStep s (.cmd (.SetTeamNumber n))).ds_state.enabled = false) ∧
    team_to_ip 0 = "127.0.0.1" ∧
    (∀ n : Nat, n ≠ 0 →
        team_to_ip n = "10." ++ toString (n / 100) ++ "." ++ toString (n % 100) ++ ".2") ∧
    (∀ (s : LoopState) (ip : String),
        (loopStep s (.cmd (.SetTargetIp ip))).target_ip = ip ∧
        (loopStep s (.cmd (.SetTargetIp ip))).robot_state = s.robot_state ∧
        (loopStep s (.cmd (.SetTargetIp ip))).ds_state = s.ds_state) := by
  refine ⟨?_, by simp [team_to_ip], ?_, ?_⟩
  · intro s n; simp [loopStep]
  · intro n hn; simp [team_to_ip, hn]
  · intro s ip; simp [loopStep]

/-- Witness for C9: team 1234 maps to `10.12.34.2`, and `SetTeamNumber 254`
resets the robot status. -/
theorem C9_target_address_witness :
    team_to_ip 1234 = "10." ++ toString (1234 / 100) ++ "." ++ toString (1234 % 100) ++ ".2" ∧
    (loopStep (initLoopState true true) (.cmd (.SetTeamNumber 254))).robot_state =
      RobotState.default :=
  ⟨C9_target_address.2.2.1 1234 (by decide), (C9_target_address.1 (initLoopState true true) 254).2.1⟩

/-- C9 counterexample: `SetTargetIp` changes the target address of a connected
state but leaves `RobotStatus` connected — it is not reset to its default. -/
theorem C9_set_target_ip_cex :
    (loopStep { initLoopState true true with
        robot_state := { RobotState.default with connected := true } }
      (.cmd (.SetTargetIp ("10.9.9.9")))).target_ip ≠
      ({ initLoopState true true with
          robot_state := { RobotState.default with connected := true } } : LoopState).target_ip ∧
    (loopStep { initLoopState true true with
        robot_state := { RobotState.default with connected := true } }
      (.cmd (.SetTargetIp ("10.9.9.9")))).robot_state.connected = true ∧
    RobotState.default.connected = false := by
  refine ⟨?_, by simp [loopStep], by simp [RobotState.default]⟩
  simp [loopStep, initLoopState, team_to_ip]

/-! ## Inbound tag-walk theorems (C4, C8) -/

/-- Tag walk over one well-formed record: the record is dispatched and the
walk continues after it. -/
theorem parseTags_skip (diag : DiagnosticData) (tag : Nat) (payload rest : List Nat) :
    parseTags diag ((payload.length + 1) :: tag :: payload ++ rest) =
      parseTags (parseTag diag tag payload) rest := by
  rw [parseTags.eq_def]
  split
  next heq => exact absurd heq (by simp)
  next size rest2 heq =>
    injection heq with hsize hrest
    subst hsize
    subst hrest
    rw [if_neg (by simp)]
    simp only [List.append_eq, List.cons_append, List.getD_cons_zero, List.drop_succ_cons,
      List.drop_zero, Nat.add_sub_cancel, List.take_left, List.drop_left]

/-- The tag walk stops at the end of the frame. -/
theorem parseTags_nil (diag : DiagnosticData) : parseTags diag [] = diag := by
  rw [parseTags.eq_def]

/-- C4 (amended): `parse_inbound_packet` begins reading `size/tag/data`
records at byte 8 of the frame (one byte after the battery-fraction byte at
byte 6, skipping byte 7), so a well-formed tag record whose size byte is at
offset 8 is decoded and applied to `Diagnostics` — here a `0x04` disk record. -/
theorem C4_tags_at_byte8 (hdr : List Nat) (h : hdr.length = 8) (b0 b1 b2 b3 : Nat)
    (r : RobotState) (d : DiagnosticData) :
    (parse_inbound_packet (hdr ++ [5, 4, b0, b1, b2, b3]) r d).2.disk_usage =
      (be32 b0 b1 b2 b3 : ℚ) := by
  unfold parse_inbound_packet
  have hlen : ¬((hdr ++ [5, 4, b0, b1, b2, b3]).length < 7) := by simp [h]
  rw [if_neg hlen]
  have hdrop : (hdr ++ [5, 4, b0, b1, b2, b3]).drop 8 = [5, 4, b0, b1, b2, b3] := by
    rw [← h, List.drop_left]
  have hrec : parseTags d [5, 4, b0, b1, b2, b3] = parseTag d 4 [b0, b1, b2, b3] := by
    have := parseTags_skip d 4 [b0, b1, b2, b3] []
    simpa [parseTags_nil] using this
  simp only [hdrop, hrec, parseTag]
  norm_num

/-- Witness for C4: a disk record at offset 8 with value 42 lands in
`disk_usage`. -/
theorem C4_tags_at_byte8_witness :
    (parse_inbound_packet ([0, 0, 0, 0, 0, 0, 0, 0] ++ [5, 4, 0, 0, 0, 42])
        RobotState.default DiagnosticData.default).2.disk_usage = (be32 0 0 0 42 : ℚ) :=
  C4_tags_at_byte8 [0, 0, 0, 0, 0, 0, 0, 0] (by decide) 0 0 0 42 RobotState.default
    DiagnosticData.default

/-- C4 counterexample: a frame carrying a well-formed `0x04` disk record whose
size byte is at offset 7 (value 42) is NOT applied — the walk starts at byte
8, so `disk_usage` stays 0 instead of becoming `be32 0 0 0 42 = 42`. -/
theorem C4_byte7_cex :
    (parse_inbound_packet ([0, 0, 0, 0, 0, 0, 0] ++ [5, 4, 0, 0, 0, 42])
        RobotState.default DiagnosticData.default).2.disk_usage = 0 ∧
    (0 : ℚ) ≠ (be32 0 0 0 42 : ℚ) := by
  constructor
  · simp +decide [parse_inbound_packet, parseTags, parseTag, DiagnosticData.default]
  · norm_num [be32]

/-- Folding `t + f c` over a list sums the images. -/
theorem foldl_add_eq_sum (f : Nat → ℚ) (l : List Nat) (init : ℚ) :
    l.foldl (fun t c => t + f c) init = init + (l.map f).sum := by
  induction l generalizing init with
  | nil => simp
  | cons a l ih => rw [List.foldl_cons, ih]; simp [add_assoc]

/-- The CPU arm of `parseTag` on a payload of exactly `1 + 4·count` bytes with
`count ≥ 3`: the mean of the decoded per-core values. -/
theorem parseTag_cpu (d : DiagnosticData) (count : Nat) (bytes : List Nat)
    (hb : bytes.length = 4 * count) (h3 : 3 ≤ count) :
    parseTag d 5 (count :: bytes) = { d with cpu_usage :=
      ((List.range count).map (fun c =>
        f32ToRat (be32 (bytes.getD (c * 4) 0) (bytes.getD (c * 4 + 1) 0)
          (bytes.getD (c * 4 + 2) 0) (bytes.getD (c * 4 + 3) 0)))).sum / (count : ℚ) } := by
  unfold parseTag
  rw [if_neg (by decide : ¬((5 : Nat) = 4)), if_pos (rfl : (5 : Nat) = 5)]
  simp only [List.getD_cons_zero]
  rw [if_pos (show 12 ≤ (count :: bytes).length by simp [hb]; omega)]
  rw [if_pos (show 0 < count ∧ 1 + count * 4 ≤ (count :: bytes).length by
    constructor
    · omega
    · simp [hb]; omega)]
  have hfun : (fun (t : ℚ) (c : Nat) =>
      t + f32ToRat (be32 ((count :: bytes).getD (1 + c * 4) 0)
        ((count :: bytes).getD (2 + c * 4) 0) ((count :: bytes).getD (3 + c * 4) 0)
        ((count :: bytes).getD (4 + c * 4) 0))) =
      (fun (t : ℚ) (c : Nat) =>
        t + f32ToRat (be32 (bytes.getD (c * 4) 0) (bytes.getD (c * 4 + 1) 0)
          (bytes.getD (c * 4 + 2) 0) (bytes.getD (c * 4 + 3) 0))) := by
    funext t c
    have e1 : (count :: bytes).getD (1 + c * 4) 0 = bytes.getD (c * 4) 0 := by
      rw [show 1 + c * 4 = c * 4 + 1 from by omega, List.getD_cons_succ]
    have e2 : (count :: bytes).getD (2 + c * 4) 0 = bytes.getD (c * 4 + 1) 0 := by
      rw [show 2 + c * 4 = (c * 4 + 1) + 1 from by omega, List.getD_cons_succ]
    have e3 : (count :: bytes).getD (3 + c * 4) 0 = bytes.getD (c * 4 + 2) 0 := by
      rw [show 3 + c * 4 = (c * 4 + 2) + 1 from by omega, List.getD_cons_succ]
    have e4 : (count :: bytes).getD (4 + c * 4) 0 = bytes.getD (c * 4 + 3) 0 := by
      rw [show 4 + c * 4 = (c * 4 + 3) + 1 from by omega, List.getD_cons_succ]
    rw [e1, e2, e3, e4]
  rw [hfun, foldl_add_eq_sum, zero_add]

/-- The CPU arm of `parseTag` on a payload of exactly `1 + 4·count` bytes with
`count < 3`: the 12-byte gate drops the record. -/
theorem parseTag_cpu_small (d : DiagnosticData) (count : Nat) (bytes : List Nat)
    (hb : bytes.length = 4 * count) (h3 : count < 3) :
    parseTag d 5 (count :: bytes) = d := by
  unfold parseTag
  rw [if_neg (by decide : ¬((5 : Nat) = 4)), if_pos (rfl : (5 : Nat) = 5)]
  rw [if_neg (show ¬(12 ≤ (count :: bytes).length) by simp [hb]; omega)]

/-- C8 (amended): an inbound `0x05` CPU tag whose payload is
`count :: bytes` with `|bytes| = 4·count` updates `cpuUsage` to the mean of
the per-core `f32` values only when `count ≥ 3` — the code first requires the
payload to be at least 12 bytes (`1 + 4·count ≥ 12` forces `count ≥ 3`) and
then checks `count ≥ 1` and `1 + 4·count` bytes; for `count < 3` the record
passes the `1 + 4·count` length check but is dropped by the 12-byte gate. -/
theorem C8_cpu_gating (hdr : List Nat) (h : hdr.length = 8) (count : Nat) (bytes : List Nat)
    (hb : bytes.length = 4 * count) (h63 : count ≤ 63) (r : RobotState) (d : DiagnosticData) :
    (3 ≤ count →
      (parse_inbound_packet (hdr ++ (2 + 4 * count) :: 5 :: count :: bytes) r d).2.cpu_usage =
        ((List.range count).map (fun c =>
          f32ToRat (be32 (bytes.getD (c * 4) 0) (bytes.getD (c * 4 + 1) 0)
            (bytes.getD (c * 4 + 2) 0) (bytes.getD (c * 4 + 3) 0)))).sum / (count : ℚ))
    ∧ (count < 3 →
      (parse_inbound_packet (hdr ++ (2 + 4 * count) :: 5 :: count :: bytes) r d).2.cpu_usage =
        d.cpu_usage) := by
  have hparse :
      (parse_inbound_packet (hdr ++ (2 + 4 * count) :: 5 :: count :: bytes) r d).2 =
        parseTag d 5 (count :: bytes) := by
    unfold parse_inbound_packet
    have hlen : ¬((hdr ++ (2 + 4 * count) :: 5 :: count :: bytes).length < 7) := by
      simp [h]; omega
    rw [if_neg hlen]
    have hdrop : (hdr ++ (2 + 4 * count) :: 5 :: count :: bytes).drop 8 =
        (2 + 4 * count) :: 5 :: count :: bytes := by
      rw [← h, List.drop_left]
    have hshape : (2 + 4 * count) :: 5 :: count :: bytes =
        ((count :: bytes).length + 1) :: 5 :: (count :: bytes) ++ [] := by
      simp [hb]; omega
    rw [hdrop, hshape, parseTags_skip, parseTags_nil]
  constructor
  · intro h3
    rw [hparse, parseTag_cpu d count bytes hb h3]
  · intro h3
    rw [hparse, parseTag_cpu_small d count bytes hb h3]

/-- Witness for C8: a 3-core CPU tag with every core at `f32` 50.0
(`0x42480000`) sets `cpu_usage` to 50. -/
theorem C8_cpu_gating_witness :
    (parse_inbound_packet ([0, 0, 0, 0, 0, 0, 0, 0] ++
        (2 + 4 * 3) :: 5 :: 3 :: [66, 72, 0, 0, 66, 72, 0, 0, 66, 72, 0, 0])
      RobotState.default DiagnosticData.default).2.cpu_usage = 50 := by
  rw [(C8_cpu_gating [0, 0, 0, 0, 0, 0, 0, 0] (by decide) 3
      [66, 72, 0, 0, 66, 72, 0, 0, 66, 72, 0, 0] (by decide) (by decide)
      RobotState.default DiagnosticData.default).1 (by decide)]
  simp +decide [List.range_succ]
  norm_num [f32ToRat, be32]

/-- C8 counterexample: a complete `0x05` CPU record whose payload has length
exactly `1 + 4·count` with `count = 1` (one core at 50.0) is dropped by the
12-byte minimum — `cpu_usage` stays 0 instead of the claimed mean 50. -/
theorem C8_cpu_min_len_cex :
    (parse_inbound_packet ([0, 0, 0, 0, 0, 0, 0, 0] ++ [6, 5, 1, 66, 72, 0, 0])
        RobotState.default DiagnosticData.default).2.cpu_usage = 0 ∧
    f32ToRat (be32 66 72 0 0) = 50 ∧ (0 : ℚ) ≠ 50 := by
  refine ⟨?_, ?_, by norm_num⟩
  · simp +decide [parse_inbound_packet, parseTags, parseTag, DiagnosticData.default]
  · norm_num [f32ToRat, be32]

/-! ## Joystick record theorems (C5) -/

/-- Full-deflection axes map to ±127 (byte 129 = −127), centre to 0. -/
theorem axisToByte_one : axisToByte 1 = 127 := by
  have h1 : min 127 (max (-128) ((1 : ℚ) * 127)) = 127 := by norm_num
  simp only [axisToByte, axisToI8, h1, ratTrunc, i8ToByte]
  norm_num
  decide

theorem axisToByte_negOne : axisToByte (-1) = 129 := by
  have h1 : min 127 (max (-128) ((-1 : ℚ) * 127)) = -127 := by norm_num
  simp only [axisToByte, axisToI8, h1, ratTrunc, i8ToByte]
  norm_num
  decide

theorem axisToByte_zero : axisToByte 0 = 0 := by
  have h1 : min 127 (max (-128) ((0 : ℚ) * 127)) = 0 := by norm_num
  simp only [axisToByte, axisToI8, h1, ratTrunc, i8ToByte]
  norm_num

/-- The half-deflection axis 0.5: `0.5 · 127 = 63.5` truncates to 63. -/
theorem axisToI8_half : axisToI8 (1 / 2) = 63 := by
  have h1 : min 127 (max (-128) ((1 / 2 : ℚ) * 127)) = 127 / 2 := by norm_num
  simp only [axisToI8, h1, ratTrunc]
  norm_num

theorem axisToByte_half : axisToByte (1 / 2) = 63 := by
  simp only [axisToByte, axisToI8_half, i8ToByte]
  decide

/-- The in-range guard in the button loop is redundant (`getD` defaults to
`false` out of range). -/
theorem buttonByte_eq (l : List Bool) (j : Nat) :
    buttonByte l j = (List.range 8).foldl
      (fun acc bit => if l.getD (8 * j + bit) false then acc ||| (1 <<< (7 - bit)) else acc) 0 := by
  unfold buttonByte
  congr 1
  funext acc bit
  by_cases hlt : j * 8 + bit < l.length
  · have hlt2 : 8 * j + bit < l.length := by omega
    simp [Nat.mul_comm j 8, hlt2]
  · rw [if_neg (by rw [List.getD_eq_default _ _ (by omega)]; simp)]
    rw [if_neg (by rw [show 8 * j + bit = j * 8 + bit from by ring,
      List.getD_eq_default _ _ (by omega)]; simp)]

/-- The packed button byte equals the spec's MSB-first bit sum. -/
theorem buttonByte_sum (l : List Bool) (j : Nat) :
    buttonByte l j = ((List.range 8).map
      (fun b => if l.getD (8 * j + b) false then 2 ^ (7 - b) else 0)).sum := by
  rw [buttonByte_eq]
  simp only [List.range_succ, List.range_zero, List.foldl_cons, List.foldl_nil,
    List.map_append, List.map_cons, List.map_nil, List.sum_append, List.sum_cons,
    List.sum_nil, List.nil_append, List.cons_append]
  generalize l.getD (8 * j + 0) false = b0
  generalize l.getD (8 * j + 1) false = b1
  generalize l.getD (8 * j + 2) false = b2
  generalize l.getD (8 * j + 3) false = b3
  generalize l.getD (8 * j + 4) false = b4
  generalize l.getD (8 * j + 5) false = b5
  generalize l.getD (8 * j + 6) false = b6
  generalize l.getD (8 * j + 7) false = b7
  revert b0 b1 b2 b3 b4 b5 b6 b7
  decide

/-- Each POV contributes exactly two bytes. -/
theorem povBytes_length (l : List Int) : ((l.map i16ToBytes).flatten).length = 2 * l.length := by
  induction l with
  | nil => simp
  | cons p l ih =>
    simp only [List.map_cons, List.flatten_cons, List.length_append, ih, i16ToBytes,
      List.length_cons, List.length_nil]
    omega

/-- C5 (amended): the emitted `0x0C` record matches the documented layout —
axes count then i8 axes, button count then `ceil(count/8)` MSB-first packed
bytes (bit 7 = button 0), POV count then big-endian i16 POVs, with
`size = 1 + |payload|` — except that the axis mapping is the truncation
`trunc(clamp(x·127, −128, 127))` rather than the documented rounding; the
claim's concrete example (axes `[1,−1,0,0,0,0]`, buttons 0 and 7, POV 180)
produces exactly the stated bytes. -/
theorem C5_joystick_record :
    (∀ js : JoystickState, joystickTag js = specJoystickRecord js) ∧
    joystickTag { axes := [1, -1, 0, 0, 0, 0],
                  buttons := [true, false, false, false, false, false, false, true,
                              false, false, false, false, false, false, false, false],
                  povs := [180] } =
      [14, 0x0C, 6, 127, 129, 0, 0, 0, 0, 16, 0x81, 0x00, 1, 0x00, 0xB4] := by
  constructor
  · intro js
    unfold joystickTag specJoystickRecord
    have hbb : packButtons js.buttons =
        (List.range ((js.buttons.length + 7) / 8)).map
          (fun j => ((List.range 8).map
            (fun b => if js.buttons.getD (8 * j + b) false then 2 ^ (7 - b) else 0)).sum) := by
      unfold packButtons
      congr 1
      funext j
      exact buttonByte_sum js.buttons j
    rw [hbb]
    simp only [List.length_append, List.length_map, List.length_cons, List.length_range,
      List.length_nil, povBytes_length, List.append_assoc, List.cons_append,
      List.singleton_append, List.nil_append]
    congr 1
    omega
  · simp only [joystickTag, List.map_cons, List.map_nil, axisToByte_one, axisToByte_negOne,
      axisToByte_zero]
    decide

/-- C5 counterexample: at axis value 0.5 the code emits byte 63
(`trunc(63.5)`), while the documented `round(clamp(x,−1,1)·127)` gives 64 —
the claimed general axis mapping does not hold. -/
theorem C5_axis_round_cex :
    (joystickTag
      { axes := [1 / 2, 0, 0, 0, 0, 0],
        buttons := List.replicate 16 false,
        povs := [-1] }).getD 3 0 = 63 ∧
    i8ToByte (specAxisQuantize (1 / 2)) = 64 ∧ (63 : Nat) ≠ 64 := by
  refine ⟨?_, ?_, by decide⟩
  · simp only [joystickTag, List.map_cons, List.map_nil, axisToByte_half, axisToByte_zero]
    decide
  · have h1 : min 1 (max (-1) ((1 : ℚ) / 2)) * 127 = 127 / 2 := by norm_num
    simp only [specAxisQuantize, h1]
    rw [if_pos (by norm_num)]
    rw [show (127 / 2 + 1 / 2 : ℚ) = ((64 : Int) : ℚ) from by norm_num, Int.floor_intCast]
    decide

/-! ## Outbound frame structure (C3, C10) -/

/-- Record counting over one well-formed record. -/
theorem countTag_skip (t tag : Nat) (payload rest : List Nat) :
    countTag t ((payload.length + 1) :: tag :: payload ++ rest) =
      (if tag = t then 1 else 0) + countTag t rest := by
  rw [countTag.eq_def]
  split
  next heq => exact absurd heq (by simp)
  next size rest2 heq =>
    injection heq with hsize hrest
    subst hsize
    subst hrest
    rw [if_neg (by simp)]
    simp only [List.append_eq, List.cons_append, List.getD_cons_zero, List.drop_succ_cons,
      List.drop_left]

theorem countTag_nil (t : Nat) : countTag t [] = 0 := by
  rw [countTag.eq_def]

/-- Joystick decoding over one well-formed record. -/
theorem decodeJoystickRecords_skip (tag : Nat) (payload rest : List Nat) :
    decodeJoystickRecords ((payload.length + 1) :: tag :: payload ++ rest) =
      if tag = 0x0C then decodeJoystickData payload :: decodeJoystickRecords rest
      else decodeJoystickRecords rest := by
  rw [decodeJoystickRecords.eq_def]
  split
  next heq => exact absurd heq (by simp)
  next size rest2 heq =>
    injection heq with hsize hrest
    subst hsize
    subst hrest
    rw [if_neg (by simp)]
    simp only [List.append_eq, List.cons_append, List.getD_cons_zero, List.drop_succ_cons,
      List.drop_zero, Nat.add_sub_cancel, List.take_left, List.drop_left]

theorem decodeJoystickRecords_nil : decodeJoystickRecords [] = [] := by
  rw [decodeJoystickRecords.eq_def]

/-- A list of length one is a singleton. -/
theorem exists_singleton {α : Type _} (l : List α) (h : l.length = 1) : ∃ a, l = [a] := by
  cases l with
  | nil => simp at h
  | cons a t =>
    cases t with
    | nil => exact ⟨a, rfl⟩
    | cons b t2 => simp at h

/-- i8 byte round-trip on in-range values. -/
theorem byteToI8_i8ToByte (v : Int) (h1 : -128 ≤ v) (h2 : v ≤ 127) :
    byteToI8 (i8ToByte v) = v := by
  unfold byteToI8 i8ToByte
  split <;> omega

/-- i16 big-endian byte-pair round-trip on in-range values. -/
theorem bytesToI16_i16ToBytes (p : Int) (h1 : -32768 ≤ p) (h2 : p < 32768) :
    bytesToI16 ((i16ToBytes p).getD 0 0) ((i16ToBytes p).getD 1 0) = p := by
  unfold bytesToI16 i16ToBytes be16
  simp only [List.getD_cons_zero, List.getD_cons_succ]
  split <;> omega

/-- The code's axis conversion always lands in the i8 range. -/
theorem axisToI8_bounds (x : ℚ) : -128 ≤ axisToI8 x ∧ axisToI8 x ≤ 127 := by
  unfold axisToI8 ratTrunc
  set y := min 127 (max (-128) (x * 127)) with hy
  have hy1 : (-128 : ℚ) ≤ y := le_min (by norm_num) (le_max_left _ _)
  have hy2 : y ≤ 127 := min_le_left _ _
  split
  next h0 =>
    constructor
    · have : (0 : Int) ≤ ⌊y⌋ := Int.le_floor.mpr (by exact_mod_cast h0)
      omega
    · have hf : (⌊y⌋ : ℚ) ≤ 127 := le_trans (Int.floor_le y) hy2
      exact_mod_cast hf
  next h0 =>
    constructor
    · have hc : (-128 : ℚ) ≤ (⌈y⌉ : ℚ) := le_trans hy1 (Int.le_ceil y)
      exact_mod_cast hc
    · have : ⌈y⌉ ≤ 0 := Int.ceil_le.mpr (by push_neg at h0; exact le_of_lt h0)
      omega

/-- Decoding an emitted axis byte recovers the quantized axis value. -/
theorem axisByte_decode (x : ℚ) : byteToI8 (axisToByte x) = axisToI8 x :=
  byteToI8_i8ToByte _ (axisToI8_bounds x).1 (axisToI8_bounds x).2

/-- Bit `7 − r` of a packed button byte is button `8j + r`. -/
theorem buttonByte_testBit (l : List Bool) (j r : Nat) (hr : r < 8) :
    Nat.testBit (buttonByte l j) (7 - r) = l.getD (8 * j + r) false := by
  rw [buttonByte_eq]
  simp only [List.range_succ, List.range_zero, List.foldl_cons, List.foldl_nil,
    List.nil_append, List.cons_append]
  interval_cases r <;>
    (generalize l.getD (8 * j + 0) false = b0;
     generalize l.getD (8 * j + 1) false = b1;
     generalize l.getD (8 * j + 2) false = b2;
     generalize l.getD (8 * j + 3) false = b3;
     generalize l.getD (8 * j + 4) false = b4;
     generalize l.getD (8 * j + 5) false = b5;
     generalize l.getD (8 * j + 6) false = b6;
     generalize l.getD (8 * j + 7) false = b7;
     revert b0 b1 b2 b3 b4 b5 b6 b7;
     decide)

/-- With 16 buttons the pack is exactly two bytes. -/
theorem packButtons_sixteen (l : List Bool) (h : l.length = 16) :
    packButtons l = [buttonByte l 0, buttonByte l 1] := by
  simp [packButtons, h, List.range_succ]

/-- Every well-formed joystick produces a 15-byte `0x0C` record whose payload
decodes back to the quantized joystick. -/
theorem joystickTag_shape (js : JoystickState) (h : wfJoystick js) :
    ∃ payload : List Nat, joystickTag js = (payload.length + 1) :: 0x0C :: payload ∧
      payload.length = 13 ∧ decodeJoystickData payload = quantizeJoystick js := by
  obtain ⟨hA, hB, hP, hPr⟩ := h
  obtain ⟨p, hp⟩ := exists_singleton js.povs hP
  refine ⟨6 :: (js.axes.map axisToByte ++ 16 ::
      (packButtons js.buttons ++ 1 :: (js.povs.map i16ToBytes).flatten)), ?_, ?_, ?_⟩
  · unfold joystickTag
    simp only [hA, hB, hP, packButtons_sixteen js.buttons hB, povBytes_length,
      List.length_append, List.length_cons, List.length_map, List.length_nil,
      List.cons_append, List.append_assoc, List.nil_append]
  · simp [hp, i16ToBytes, hA, hB, packButtons_sixteen js.buttons hB]
  · rw [packButtons_sixteen js.buttons hB]
    have hmaplen : (js.axes.map axisToByte).length = 6 := by simp [hA]
    simp only [decodeJoystickData, List.headD_cons, List.tail_cons,
      List.take_left' hmaplen, List.drop_left' hmaplen]
    simp only [List.map_map]
    have haxes : js.axes.map (byteToI8 ∘ axisToByte) = js.axes.map axisToI8 :=
      List.map_congr_left (fun x _ => axisByte_decode x)
    have hbtns : (List.range 16).map (fun k =>
        Nat.testBit ((List.take ((16 + 7) / 8)
          ([buttonByte js.buttons 0, buttonByte js.buttons 1] ++
            1 :: (js.povs.map i16ToBytes).flatten)).getD (k / 8) 0) (7 - k % 8)) =
        js.buttons := by
      have htake : List.take ((16 + 7) / 8)
          ([buttonByte js.buttons 0, buttonByte js.buttons 1] ++
            1 :: (js.povs.map i16ToBytes).flatten) =
          [buttonByte js.buttons 0, buttonByte js.buttons 1] := by
        norm_num
      rw [htake]
      apply List.ext_getElem
      · simp [hB]
      · intro k hk1 hk2
        simp only [List.getElem_map, List.getElem_range] at hk1 ⊢
        have hk : k < 16 := by simpa using hk1
        have hkd : k / 8 < 2 := by omega
        have hgb : ([buttonByte js.buttons 0, buttonByte js.buttons 1].getD (k / 8) 0) =
            buttonByte js.buttons (k / 8) := by
          interval_cases hkk : k / 8 <;> simp
        rw [hgb, buttonByte_testBit js.buttons (k / 8) (k % 8) (by omega)]
        have : 8 * (k / 8) + k % 8 = k := by omega
        rw [this]
        have hklen : k < js.buttons.length := by omega
        simp [List.getD_eq_getElem?_getD, List.getElem?_eq_getElem hklen]
    have hdrop2 : List.drop ((16 + 7) / 8)
        ([buttonByte js.buttons 0, buttonByte js.buttons 1] ++
          1 :: (js.povs.map i16ToBytes).flatten) =
        1 :: (js.povs.map i16ToBytes).flatten := by
      norm_num
    rw [hbtns, hdrop2]
    simp only [List.headD_cons, List.tail_cons]
    have hpovs : (List.range 1).map (fun k =>
        bytesToI16 (((js.povs.map i16ToBytes).flatten).getD (2 * k) 0)
          (((js.povs.map i16ToBytes).flatten).getD (2 * k + 1) 0)) = js.povs := by
      rw [hp]
      simp only [List.map_cons, List.map_nil, List.flatten_cons, List.flatten_nil,
        List.append_nil, List.range_succ, List.range_zero, List.nil_append,
        Nat.mul_zero, Nat.zero_add]
      have hb := bytesToI16_i16ToBytes p (hPr p (by rw [hp]; simp)).1 (hPr p (by rw [hp]; simp)).2
      cases hi : i16ToBytes p with
      | nil => simp [i16ToBytes] at hi
      | cons x t =>
        cases t with
        | nil => simp [i16ToBytes] at hi
        | cons y t2 =>
          have ht2 : t2 = [] := by
            have : (i16ToBytes p).length = 2 := by simp [i16ToBytes]
            rw [hi] at this
            simpa using this
          subst ht2
          rw [hi] at hb
          simpa using hb
    rw [hpovs, haxes]
    rfl

/-- A single non-joystick record counts no `0x0C` tags. -/
theorem countTag_single (t tag : Nat) (payload : List Nat) (htag : tag ≠ t) :
    countTag t ((payload.length + 1) :: tag :: payload) = 0 := by
  have h := countTag_skip t tag payload []
  simp only [List.append_nil] at h
  rw [h, if_neg htag, countTag_nil]

/-- A single non-joystick record decodes to no joysticks. -/
theorem decodeJoystickRecords_single (tag : Nat) (payload : List Nat) (htag : tag ≠ 0x0C) :
    decodeJoystickRecords ((payload.length + 1) :: tag :: payload) = [] := by
  have h := decodeJoystickRecords_skip tag payload []
  simp only [List.append_nil] at h
  rw [h, if_neg htag, decodeJoystickRecords_nil]

/-- The DateTime record is an 11-byte `0x0F` record. -/
theorem dateTimeTag_shape (secs micros : Nat) :
    ∃ payload : List Nat, dateTimeTag secs micros = (payload.length + 1) :: 0x0F :: payload := by
  refine ⟨be32Bytes micros ++
    [secs % 60, secs / 60 % 60, secs / 3600 % 24, (days_to_date (secs / 86400)).2.2,
     ((days_to_date (secs / 86400)).2.1 + 255) % 256,
     ((days_to_date (secs / 86400)).1 + 65536 - 1900) % 256], ?_⟩
  simp [dateTimeTag, be32Bytes]

/-- The DateTime area never counts as a joystick record. -/
theorem countTag_dtArea (seq : Nat) (clock : Option (Nat × Nat)) :
    countTag 0x0C (dtArea seq clock) = 0 := by
  unfold dtArea
  split
  · cases clock with
    | none => exact countTag_nil _
    | some sm =>
      obtain ⟨secs, micros⟩ := sm
      show countTag 0x0C (dateTimeTag secs micros) = 0
      obtain ⟨payload, hp⟩ := dateTimeTag_shape secs micros
      rw [hp, countTag_single _ _ _ (by decide)]
  · exact countTag_nil _

/-- The DateTime area decodes to no joysticks. -/
theorem decodeJoystickRecords_dtArea (seq : Nat) (clock : Option (Nat × Nat)) :
    decodeJoystickRecords (dtArea seq clock) = [] := by
  unfold dtArea
  split
  · cases clock with
    | none => exact decodeJoystickRecords_nil
    | some sm =>
      obtain ⟨secs, micros⟩ := sm
      show decodeJoystickRecords (dateTimeTag secs micros) = []
      obtain ⟨payload, hp⟩ := dateTimeTag_shape secs micros
      rw [hp, decodeJoystickRecords_single _ _ (by decide)]
  · exact decodeJoystickRecords_nil

/-- Counting over a run of well-formed joystick records. -/
theorem countTag_flatten (l : List JoystickState) (hwf : ∀ j ∈ l, wfJoystick j)
    (suffix : List Nat) (hs : countTag 0x0C suffix = 0) :
    countTag 0x0C ((l.map joystickTag).flatten ++ suffix) = l.length := by
  induction l with
  | nil => simpa using hs
  | cons j l ih =>
    obtain ⟨payload, hpl, _, _⟩ := joystickTag_shape j (hwf j (by simp))
    simp only [List.map_cons, List.flatten_cons, List.append_assoc, hpl]
    rw [countTag_skip, if_pos rfl, ih (fun x hx => hwf x (by simp [hx]))]
    simp only [List.length_cons]
    omega

/-- Decoding over a run of well-formed joystick records. -/
theorem decodeJoystickRecords_flatten (l : List JoystickState) (hwf : ∀ j ∈ l, wfJoystick j)
    (suffix : List Nat) (hs : decodeJoystickRecords suffix = []) :
    decodeJoystickRecords ((l.map joystickTag).flatten ++ suffix) =
      l.map quantizeJoystick := by
  induction l with
  | nil => simpa using hs
  | cons j l ih =>
    obtain ⟨payload, hpl, _, hdec⟩ := joystickTag_shape j (hwf j (by simp))
    simp only [List.map_cons, List.flatten_cons, List.append_assoc, hpl]
    rw [decodeJoystickRecords_skip, if_pos rfl, hdec, ih (fun x hx => hwf x (by simp [hx]))]

/-- The frame after the 6-byte header is the joystick area followed by the
DateTime area, and byte 3 is the control byte. -/
theorem build_decomp (seq : Nat) (st : DsState) (js : List JoystickState)
    (clock : Option (Nat × Nat)) :
    build_outbound_packet seq st js clock =
      [seq / 256 % 256, seq % 256, 1,
        (if st.estop then 0x80 else 0) ||| (if st.enabled then 0x04 else 0) ||| st.mode.to_bits,
        (if st.request_reboot then 0x08 else 0) ||| (if st.request_restart_code then 0x04 else 0),
        st.alliance.to_byte] ++
      (((js.take 6).map joystickTag).flatten ++ dtArea seq clock) := by
  unfold build_outbound_packet be16Bytes
  simp [List.append_assoc]

/-- Dropping the header of an outbound frame leaves the tag area. -/
theorem build_drop6 (seq : Nat) (st : DsState) (js : List JoystickState)
    (clock : Option (Nat × Nat)) :
    (build_outbound_packet seq st js clock).drop 6 =
      ((js.take 6).map joystickTag).flatten ++ dtArea seq clock := by
  rw [build_decomp]
  rw [List.drop_left' (by simp)]

/-- Snapshot syncing preserves the base length. -/
theorem syncFold_length (gs : List TrackedGamepad) (js : List JoystickState) :
    (gs.foldl (fun js gp => if gp.slot < js.length then js.set gp.slot gp.state else js)
      js).length = js.length := by
  induction gs generalizing js with
  | nil => rfl
  | cons g gs ih =>
    rw [List.foldl_cons]
    rw [ih]
    split <;> simp

/-- `sync_joystick_state` publishes `max slot + 1` entries. -/
theorem syncJoystickState_length (gps : List TrackedGamepad) :
    (syncJoystickState gps).length = (gps.map (fun g => g.slot)).foldl max 0 + 1 := by
  unfold syncJoystickState
  rw [syncFold_length]
  simp

/-- C10: at most six joystick records are emitted — the outbound tag area of
every frame built from a well-formed snapshot contains exactly
`min |snapshot| 6` records with tag `0x0C`, so entries beyond the first six
are silently omitted — while the snapshot `sync_joystick_state` publishes is
sized to the maximum occupied slot plus one and can therefore hold more than
six entries (a device in slot 6 yields a 7-entry snapshot). -/
theorem C10_six_joystick_limit :
    (∀ (seq : Nat) (st : DsState) (js : List JoystickState) (clock : Option (Nat × Nat)),
        (∀ j ∈ js, wfJoystick j) →
        countTag 0x0C ((build_outbound_packet seq st js clock).drop 6) = min js.length 6) ∧
    (∀ gps : List TrackedGamepad,
        (syncJoystickState gps).length = (gps.map (fun g => g.slot)).foldl max 0 + 1) ∧
    (syncJoystickState
        [{ gilrs_id := 0, name := "pad", slot := 6, state := JoystickState.default }]).length =
      7 := by
  refine ⟨?_, syncJoystickState_length, ?_⟩
  · intro seq st js clock hwf
    rw [build_drop6]
    rw [countTag_flatten (js.take 6) (fun x hx => hwf x (List.mem_of_mem_take hx)) _
      (countTag_dtArea seq clock)]
    simp [List.length_take, Nat.min_comm]
  · rw [syncJoystickState_length]
    decide

/-- Witness for C10: a 7-entry snapshot of default joysticks yields exactly
six joystick records. -/
theorem C10_six_joystick_limit_witness :
    countTag 0x0C ((build_outbound_packet 1 DsState.default
        (List.replicate 7 JoystickState.default) none).drop 6) =
      min (List.replicate 7 JoystickState.default).length 6 ∧
    min (List.replicate 7 JoystickState.default).length 6 = 6 := by
  constructor
  · exact C10_six_joystick_limit.1 1 DsState.default _ none
      (fun j hj => by
        rw [List.eq_of_mem_replicate hj]
        decide)
  · decide

/-- Byte 3 of every outbound frame is the control byte. -/
theorem build_getD3 (seq : Nat) (st : DsState) (js : List JoystickState)
    (clock : Option (Nat × Nat)) :
    (build_outbound_packet seq st js clock).getD 3 0 =
      ((if st.estop then 0x80 else 0) ||| (if st.enabled then 0x04 else 0)
        ||| st.mode.to_bits) := by
  rw [build_decomp]
  rfl

/-- A frame carrying at least one well-formed joystick is at least 21 bytes. -/
theorem build_length_ge (seq : Nat) (st : DsState) (j0 : JoystickState)
    (js : List JoystickState) (clock : Option (Nat × Nat)) (hwf : wfJoystick j0) :
    7 ≤ (build_outbound_packet seq st (j0 :: js) clock).length := by
  rw [build_decomp]
  obtain ⟨payload, hpl, hlen, _⟩ := joystickTag_shape j0 hwf
  have htake : (j0 :: js).take 6 = j0 :: js.take 5 := rfl
  simp only [htake, List.map_cons, List.flatten_cons, hpl, List.length_append,
    List.length_cons, hlen]
  omega

/-- C3 (amended): the `Mode` bit codec is symmetric; parsing a frame built
from a nonempty well-formed snapshot recovers the control bits (parsed
`estopped` = `estop`, parsed `enabled` = `enabled`, parsed `mode` = `mode`);
and decoding the frame's tag area per the documented record layout recovers
every joystick of the (at most six) encoded ones — buttons and POVs exactly,
axes up to the code's truncating i8 quantization. -/
theorem C3_roundtrip :
    (∀ m : Mode, Mode.from_bits (Mode.to_bits m) = m) ∧
    (∀ (seq : Nat) (st : DsState) (js : List JoystickState) (clock : Option (Nat × Nat))
        (r : RobotState) (d : DiagnosticData), (∀ j ∈ js, wfJoystick j) → js ≠ [] →
        ((parse_inbound_packet (build_outbound_packet seq st js clock) r d).1.estopped =
            st.estop ∧
         (parse_inbound_packet (build_outbound_packet seq st js clock) r d).1.enabled =
            st.enabled ∧
         (parse_inbound_packet (build_outbound_packet seq st js clock) r d).1.mode =
            st.mode)) ∧
    (∀ (seq : Nat) (st : DsState) (js : List JoystickState) (clock : Option (Nat × Nat)),
        (∀ j ∈ js, wfJoystick j) →
        decodeJoystickRecords ((build_outbound_packet seq st js clock).drop 6) =
          (js.take 6).map quantizeJoystick) := by
  refine ⟨fun m => by cases m <;> rfl, ?_, ?_⟩
  · intro seq st js clock r d hwf hne
    obtain ⟨j0, js', rfl⟩ := List.exists_cons_of_ne_nil hne
    have hlen7 : ¬((build_outbound_packet seq st (j0 :: js') clock).length < 7) := by
      have := build_length_ge seq st j0 js' clock (hwf j0 (by simp))
      omega
    have hb3 := build_getD3 seq st (j0 :: js') clock
    unfold parse_inbound_packet
    rw [if_neg hlen7]
    simp only [hb3]
    obtain ⟨m, en, es, al, rb, rc⟩ := st
    refine ⟨?_, ?_, ?_⟩ <;>
      (cases m <;> cases en <;> cases es <;> simp [Mode.to_bits, Mode.from_bits] <;> decide)
  · intro seq st js clock hwf
    rw [build_drop6]
    exact decodeJoystickRecords_flatten (js.take 6)
      (fun x hx => hwf x (List.mem_of_mem_take hx)) _
      (decodeJoystickRecords_dtArea seq clock)

/-- Witness for C3 at a concrete frame: an estopped, enabled=false,
Autonomous state with one full-deflection joystick round-trips. -/
theorem C3_roundtrip_witness :
    Mode.from_bits (Mode.to_bits .Autonomous) = .Autonomous ∧
    ((parse_inbound_packet (build_outbound_packet 1
          { DsState.default with estop := true, mode := .Autonomous }
          [{ axes := [1, -1, 0, 0, 0, 0],
             buttons := [true, false, false, false, false, false, false, true,
                         false, false, false, false, false, false, false, false],
             povs := [180] }] none)
        RobotState.default DiagnosticData.default).1.estopped = true ∧
     (parse_inbound_packet (build_outbound_packet 1
          { DsState.default with estop := true, mode := .Autonomous }
          [{ axes := [1, -1, 0, 0, 0, 0],
             buttons := [true, false, false, false, false, false, false, true,
                         false, false, false, false, false, false, false, false],
             povs := [180] }] none)
        RobotState.default DiagnosticData.default).1.mode = .Autonomous) ∧
    decodeJoystickRecords ((build_outbound_packet 1
        { DsState.default with estop := true, mode := .Autonomous }
        [{ axes := [1, -1, 0, 0, 0, 0],
           buttons := [true, false, false, false, false, false, false, true,
                       false, false, false, false, false, false, false, false],
           povs := [180] }] none).drop 6) =
      ([({ axes := [1, -1, 0, 0, 0, 0],
           buttons := [true, false, false, false, false, false, false, true,
                       false, false, false, false, false, false, false, false],
           povs := [180] } : JoystickState)].take 6).map quantizeJoystick := by
  refine ⟨C3_roundtrip.1 .Autonomous, ?_, C3_roundtrip.2.2 1 _ _ none (by intro j hj; simp at hj; subst hj; decide)⟩
  have h := C3_roundtrip.2.1 1
      { DsState.default with estop := true, mode := .Autonomous }
      [{ axes := [1, -1, 0, 0, 0, 0],
         buttons := [true, false, false, false, false, false, false, true,
                     false, false, false, false, false, false, false, false],
         povs := [180] }] none RobotState.default DiagnosticData.default
      (by intro j hj; simp at hj; subst hj; decide) (by simp)
  exact ⟨h.1, h.2.2⟩

/-- C3 counterexample: with an empty snapshot (and a tick that emits no
DateTime record) the built frame is only 6 bytes, `parse_inbound_packet`
drops it, and the estop control bit is NOT recovered: the state has
`estop = true` but the parsed `estopped` stays `false`. -/
theorem C3_empty_snapshot_cex :
    (build_outbound_packet 1 { DsState.default with estop := true } [] none).length = 6 ∧
    (parse_inbound_packet (build_outbound_packet 1
        { DsState.default with estop := true } [] none)
      RobotState.default DiagnosticData.default).1.estopped = false ∧
    ({ DsState.default with estop := true } : DsState).estop = true := by
  refine ⟨by decide, ?_, rfl⟩
  decide

/-! ## Gamepad slot invariant (C6) -/

/-- The C6 slot invariant: unique slots in `[0,5]`, distinct device names,
well-formed lock table, and every locked slot's occupant (if any) carries the
locked name. -/
def gmInv (st : GMState) : Prop :=
  (st.gamepads.map (fun g => g.slot)).Nodup ∧
  (∀ g ∈ st.gamepads, g.slot < 6) ∧
  (st.gamepads.map (fun g => g.name)).Nodup ∧
  (st.locked_slots.map (fun p => p.1)).Nodup ∧
  (∀ p ∈ st.locked_slots, p.1 < 6) ∧
  (∀ p ∈ st.locked_slots, ∀ g ∈ st.gamepads, g.slot = p.1 → g.name = p.2)

/-- The operation preconditions of the amended C6: connecting devices carry
fresh names and (absent a matching lock) some slot in `[0,5]` is neither
occupied nor lock-reserved, and `move_to_slot` never touches a locked slot. -/
def gmOk (st : GMState) : GMOp → Prop
  | .connect _ name =>
      (∀ g ∈ st.gamepads, g.name ≠ name) ∧
      (findLockedSlot st name = none →
        ∃ s, s < 6 ∧ (∀ g ∈ st.gamepads, g.slot ≠ s) ∧ lockLookup st.locked_slots s = none)
  | .moveToSlot f t =>
      lockLookup st.locked_slots f = none ∧ lockLookup st.locked_slots t = none
  | _ => True

/-- A trace of operations, each satisfying its precondition in the state it
runs in. -/
def gmOkTrace (st : GMState) : List GMOp → Prop
  | [] => True
  | op :: ops => gmOk st op ∧ gmOkTrace (gmStep st op) ops

instance gmOkDec (st : GMState) (op : GMOp) : Decidable (gmOk st op) := by
  cases op with
  | connect id name =>
    exact decidable_of_iff
      ((∀ g ∈ st.gamepads, g.name ≠ name) ∧
        (findLockedSlot st name = none →
          ∃ s ∈ List.range 6, (∀ g ∈ st.gamepads, g.slot ≠ s) ∧
            lockLookup st.locked_slots s = none))
      (by simp only [gmOk, List.mem_range])
  | disconnect id => exact isTrue trivial
  | moveToSlot f t => unfold gmOk; infer_instance
  | lockSlot s => exact isTrue trivial
  | unlockSlot s => exact isTrue trivial

instance gmOkTraceDec : (st : GMState) → (ops : List GMOp) → Decidable (gmOkTrace st ops)
  | _, [] => isTrue trivial
  | st, op :: ops =>
    have := gmOkTraceDec (gmStep st op) ops
    inferInstanceAs (Decidable (_ ∧ _))

/-- Setting an element it already holds leaves a list unchanged. -/
theorem set_self_of_getElem? {α : Type _} (l : List α) (i : Nat) (a : α)
    (h : l[i]? = some a) : l.set i a = l := by
  induction l generalizing i with
  | nil => rfl
  | cons x xs ih =>
    cases i with
    | zero =>
      simp only [List.getElem?_cons_zero, Option.some.injEq] at h
      subst h
      rfl
    | succ j =>
      simp only [List.getElem?_cons_succ] at h
      simp [List.set_cons_succ, ih j h]

/-- `slotIdx` returns an index whose element occupies the slot. -/
theorem slotIdx_spec (l : List TrackedGamepad) (s : Nat) :
    ∀ i, slotIdx l s = some i → ∃ g, l[i]? = some g ∧ g.slot = s := by
  induction l with
  | nil => intro i h; simp [slotIdx] at h
  | cons x xs ih =>
    intro i h
    unfold slotIdx at h
    split at h
    next hx =>
      injection h with h
      subst h
      exact ⟨x, by simp, hx⟩
    next hx =>
      cases hi : slotIdx xs s with
      | none => rw [hi] at h; simp at h
      | some j =>
        rw [hi] at h
        simp at h
        obtain ⟨g, hg1, hg2⟩ := ih j hi
        exact ⟨g, by rw [← h]; simpa using hg1, hg2⟩

/-- `slotIdx = none` means the slot is unoccupied. -/
theorem slotIdx_none (l : List TrackedGamepad) (s : Nat) (h : slotIdx l s = none) :
    ∀ g ∈ l, g.slot ≠ s := by
  induction l with
  | nil => simp
  | cons x xs ih =>
    unfold slotIdx at h
    split at h
    next => simp at h
    next hx =>
      intro g hg
      cases hg with
      | head => exact hx
      | tail _ hg =>
        cases hi : slotIdx xs s with
        | none => exact ih hi g hg
        | some j => rw [hi] at h; simp at h

/-- Slot update commutes with the slot projection. -/
theorem setSlotAt_map_slot (l : List TrackedGamepad) (i s : Nat) (g : TrackedGamepad)
    (h : l[i]? = some g) :
    (setSlotAt l i s).map (fun x => x.slot) = (l.map (fun x => x.slot)).set i s := by
  unfold setSlotAt
  rw [h, List.map_set]

/-- Slot update leaves the names unchanged. -/
theorem setSlotAt_map_name (l : List TrackedGamepad) (i s : Nat) (g : TrackedGamepad)
    (h : l[i]? = some g) :
    (setSlotAt l i s).map (fun x => x.name) = l.map (fun x => x.name) := by
  unfold setSlotAt
  rw [h, List.map_set]
  apply set_self_of_getElem?
  simp [List.getElem?_map, h]

/-- Members of a slot update are old members or the updated element. -/
theorem mem_setSlotAt (l : List TrackedGamepad) (i s : Nat) (g : TrackedGamepad)
    (h : g ∈ setSlotAt l i s) :
    g ∈ l ∨ ∃ g0 ∈ l, g = { g0 with slot := s } := by
  unfold setSlotAt at h
  cases hg : l[i]? with
  | none => rw [hg] at h; exact Or.inl h
  | some g0 =>
    rw [hg] at h
    rcases List.mem_or_eq_of_mem_set h with h1 | h1
    · exact Or.inl h1
    · exact Or.inr ⟨g0, List.getElem?_mem hg, h1⟩

/-- Index length bound from a successful lookup. -/
theorem lt_of_getElem?_eq_some {α : Type _} (l : List α) (i : Nat) (a : α)
    (h : l[i]? = some a) : i < l.length := by
  by_contra hc
  rw [List.getElem?_eq_none (by omega)] at h
  simp at h

/-- Swapping two distinct positions of a duplicate-free list keeps it
duplicate-free. -/
theorem nodup_set_swap (L : List Nat) (i j : Nat) (hi : i < L.length) (hj : j < L.length)
    (hij : i ≠ j) (hnd : L.Nodup) (a b : Nat) (ha : L[i] = a) (hb : L[j] = b) :
    ((L.set i b).set j a).Nodup := by
  rw [List.Nodup, List.pairwise_iff_getElem] at hnd ⊢
  intro k1 k2 h1 h2 hk
  simp only [List.length_set] at h1 h2
  simp only [List.getElem_set]
  have hinj : ∀ (m n : Nat) (hm : m < L.length) (hn : n < L.length), m ≠ n → L[m] ≠ L[n] := by
    intro m n hm hn hmn
    rcases Nat.lt_or_ge m n with hlt | hge
    · exact hnd m n hm hn hlt
    · have : n < m := by omega
      exact fun he => (hnd n m hn hm this) he.symm
  subst ha
  subst hb
  split_ifs <;>
    first
      | omega
      | (apply hinj <;> omega)
      | (intro he; exact absurd he.symm (hinj _ _ (by omega) (by omega) (by omega)))

/-- Overwriting one position with a value not present keeps a duplicate-free
list duplicate-free. -/
theorem nodup_set_fresh (L : List Nat) (i : Nat) (hi : i < L.length) (a : Nat)
    (ha : a ∉ L) (hnd : L.Nodup) : (L.set i a).Nodup := by
  rw [List.Nodup, List.pairwise_iff_getElem] at hnd ⊢
  intro k1 k2 h1 h2 hk
  simp only [List.length_set] at h1 h2
  simp only [List.getElem_set]
  have hinj : ∀ (m n : Nat) (hm : m < L.length) (hn : n < L.length), m ≠ n → L[m] ≠ L[n] := by
    intro m n hm hn hmn
    rcases Nat.lt_or_ge m n with hlt | hge
    · exact hnd m n hm hn hlt
    · have : n < m := by omega
      exact fun he => (hnd n m hn hm this) he.symm
  have hmem : ∀ (m : Nat) (hm : m < L.length), L[m] ≠ a := by
    intro m hm he
    exact ha (he ▸ List.getElem_mem hm)
  split_ifs <;>
    first
      | omega
      | (exact hmem _ (by omega))
      | (intro he; exact hmem _ (by omega) he.symm)
      | (apply hinj <;> omega)

/-- No lock entry carries an unlocked slot key. -/
theorem lockLookup_none_iff (locks : List (Nat × String)) (s : Nat) :
    lockLookup locks s = none ↔ ∀ p ∈ locks, p.1 ≠ s := by
  unfold lockLookup
  simp [List.find?_eq_none]

/-- A successful lock lookup by name yields a member lock with that name. -/
theorem findLockedSlot_some (st : GMState) (name : String) (s : Nat)
    (h : findLockedSlot st name = some s) :
    ∃ p ∈ st.locked_slots, p.1 = s ∧ p.2 = name := by
  unfold findLockedSlot at h
  rcases Option.map_eq_some'.mp h with ⟨p, hp, hps⟩
  refine ⟨p, List.mem_of_find?_eq_some hp, hps, ?_⟩
  have := List.find?_some hp
  simpa using this

/-- When some slot in `[0,5]` is free and unlocked, `first_available_slot`
returns such a slot. -/
theorem firstAvailableSlot_found (st : GMState) (s : Nat) (hs : s < 6)
    (hfree : ∀ g ∈ st.gamepads, g.slot ≠ s) (hlk : lockLookup st.locked_slots s = none) :
    firstAvailableSlot st < 6 ∧ (∀ g ∈ st.gamepads, g.slot ≠ firstAvailableSlot st) ∧
      lockLookup st.locked_slots (firstAvailableSlot st) = none := by
  have hpred : (fun x => !(st.gamepads.any (fun g => g.slot = x)) &&
      (lockLookup st.locked_slots x).isNone) s = true := by
    simp only [Bool.and_eq_true, Bool.not_eq_true']
    constructor
    · simp only [List.any_eq_false, decide_eq_true_eq]
      exact hfree
    · simp [hlk]
  have hsome : ((List.range 6).find? (fun x => !(st.gamepads.any (fun g => g.slot = x)) &&
      (lockLookup st.locked_slots x).isNone)).isSome := by
    rw [List.find?_isSome]
    exact ⟨s, by simp [List.mem_range]; omega, hpred⟩
  rcases Option.isSome_iff_exists.mp hsome with ⟨s0, hs0⟩
  have hmem := List.mem_of_find?_eq_some hs0
  have hps0 := List.find?_some hs0
  have hfas : firstAvailableSlot st = s0 := by
    unfold firstAvailableSlot
    rw [hs0]
    rfl
  rw [hfas]
  simp only [Bool.and_eq_true, Bool.not_eq_true'] at hps0
  refine ⟨by simpa [List.mem_range] using hmem, ?_, ?_⟩
  · have := hps0.1
    simp only [List.any_eq_false, decide_eq_true_eq] at this
    exact this
  · have := hps0.2
    simpa [Option.isNone_iff_eq_none] using this

/-- `connect` preserves the slot invariant under the C6 preconditions. -/
theorem gmConnect_inv (st : GMState) (id : Nat) (name : String) (hinv : gmInv st)
    (hok : gmOk st (.connect id name)) : gmInv (gmConnect st id name) := by
  obtain ⟨hslots, hrange, hnames, hkeys, hkrange, hcons⟩ := hinv
  obtain ⟨hfresh, havail⟩ := hok
  have hkeyinj := List.inj_on_of_nodup_map hkeys
  suffices h : ∀ slotv : Nat, slotv < 6 → (∀ g ∈ st.gamepads, g.slot ≠ slotv) →
      (∀ p ∈ st.locked_slots, p.1 = slotv → p.2 = name) →
      gmInv { st with gamepads := st.gamepads ++
        [{ gilrs_id := id, name := name, slot := slotv, state := JoystickState.default }] } by
    unfold gmConnect
    cases hf : findLockedSlot st name with
    | some s =>
      simp only [hf]
      obtain ⟨p0, hp0mem, hp0s, hp0n⟩ := findLockedSlot_some st name s hf
      refine h s (hp0s ▸ hkrange p0 hp0mem) ?_ ?_
      · intro g hg hgs
        exact hfresh g hg (hp0n ▸ hcons p0 hp0mem g hg (by omega))
      · intro p hp hps
        have : p = p0 := hkeyinj hp hp0mem (by omega)
        rw [this, hp0n]
    | none =>
      simp only [hf]
      obtain ⟨s, hs, hfree, hlk⟩ := havail hf
      obtain ⟨h1, h2, h3⟩ := firstAvailableSlot_found st s hs hfree hlk
      refine h _ h1 h2 ?_
      intro p hp hps
      exact absurd hps ((lockLookup_none_iff _ _).mp h3 p hp)
  intro slotv hlt hunocc hlockname
  refine ⟨?_, ?_, ?_, hkeys, hkrange, ?_⟩
  · simp only [List.map_append, List.map_cons, List.map_nil]
    rw [List.nodup_append]
    refine ⟨hslots, by simp, ?_⟩
    intro x hx
    simp only [List.mem_map] at hx
    obtain ⟨g, hg, hgx⟩ := hx
    simp only [List.mem_singleton]
    intro hx1
    exact hunocc g hg (by rw [hgx, hx1])
  · intro g hg
    rcases List.mem_append.mp hg with hg | hg
    · exact hrange g hg
    · simp only [List.mem_singleton] at hg
      rw [hg]
      exact hlt
  · simp only [List.map_append, List.map_cons, List.map_nil]
    rw [List.nodup_append]
    refine ⟨hnames, by simp, ?_⟩
    intro x hx
    simp only [List.mem_map] at hx
    obtain ⟨g, hg, hgx⟩ := hx
    simp only [List.mem_singleton]
    intro hx1
    exact hfresh g hg (by rw [hgx, hx1])
  · intro p hp g hg hgp
    rcases List.mem_append.mp hg with hg | hg
    · exact hcons p hp g hg hgp
    · simp only [List.mem_singleton] at hg
      subst hg
      exact (hlockname p hp (by simpa using hgp.symm)).symm

/-- `disconnect` preserves the slot invariant. -/
theorem gmDisconnect_inv (st : GMState) (id : Nat) (hinv : gmInv st) :
    gmInv (gmDisconnect st id) := by
  obtain ⟨hslots, hrange, hnames, hkeys, hkrange, hcons⟩ := hinv
  have hsub : List.Sublist (st.gamepads.filter (fun g => g.gilrs_id ≠ id)) st.gamepads :=
    List.filter_sublist _
  refine ⟨hslots.sublist (hsub.map _), ?_, hnames.sublist (hsub.map _), hkeys, hkrange, ?_⟩
  · intro g hg
    exact hrange g (hsub.mem hg)
  · intro p hp g hg hgp
    exact hcons p hp g (hsub.mem hg) hgp

/-- `move_to_slot` preserves the slot invariant when neither slot is locked. -/
theorem gmMoveToSlot_inv (st : GMState) (f t : Nat) (hinv : gmInv st)
    (hok : gmOk st (.moveToSlot f t)) : gmInv (gmMoveToSlot st f t) := by
  obtain ⟨hlf, hlt⟩ := hok
  obtain ⟨hslots, hrange, hnames, hkeys, hkrange, hcons⟩ := hinv
  unfold gmMoveToSlot
  split
  next => exact ⟨hslots, hrange, hnames, hkeys, hkrange, hcons⟩
  next hguard =>
    push_neg at hguard
    obtain ⟨hft, hf6, ht6⟩ := hguard
    cases hfi : slotIdx st.gamepads f with
    | none => exact ⟨hslots, hrange, hnames, hkeys, hkrange, hcons⟩
    | some fi =>
      obtain ⟨gf, hgf, hgfs⟩ := slotIdx_spec _ _ fi hfi
      have hfi_lt : fi < st.gamepads.length := lt_of_getElem?_eq_some _ _ _ hgf
      have hLfi : (st.gamepads.map (fun x => x.slot))[fi]? = some f := by
        rw [List.getElem?_map, hgf]
        simp [hgfs]
      have hLfi_lt : fi < (st.gamepads.map (fun x => x.slot)).length := by
        simpa using hfi_lt
      cases hti : slotIdx st.gamepads t with
      | none =>
        have htfree := slotIdx_none _ _ hti
        refine ⟨?_, ?_, ?_, hkeys, hkrange, ?_⟩
        · rw [setSlotAt_map_slot _ _ _ _ hgf]
          apply nodup_set_fresh _ _ hLfi_lt _ ?_ hslots
          simp only [List.mem_map, not_exists]
          intro g
          intro hcontra
          exact htfree g hcontra.1 hcontra.2
        · intro g hg
          rcases mem_setSlotAt _ _ _ _ hg with hg | ⟨g0, hg0, rfl⟩
          · exact hrange g hg
          · exact ht6
        · rw [setSlotAt_map_name _ _ _ _ hgf]
          exact hnames
        · intro p hp g hg hgp
          rcases mem_setSlotAt _ _ _ _ hg with hg | ⟨g0, hg0, rfl⟩
          · exact hcons p hp g hg hgp
          · exact absurd hgp.symm ((lockLookup_none_iff _ _).mp hlt p hp)
      | some ti =>
        obtain ⟨gt, hgt, hgts⟩ := slotIdx_spec _ _ ti hti
        have hti_lt : ti < st.gamepads.length := lt_of_getElem?_eq_some _ _ _ hgt
        have hfine : fi ≠ ti := by
          intro he
          subst he
          rw [hgf] at hgt
          injection hgt with h
          apply hft
          rw [← hgfs, h, hgts]
        have hset_get : (setSlotAt st.gamepads fi t)[ti]? = some gt := by
          unfold setSlotAt
          rw [hgf, List.getElem?_set]
          rw [if_neg hfine]
          exact hgt
        have hLti : (st.gamepads.map (fun x => x.slot))[ti]? = some t := by
          rw [List.getElem?_map, hgt]
          simp [hgts]
        have hLti_lt : ti < (st.gamepads.map (fun x => x.slot)).length := by
          simpa using hti_lt
        have hmapslot : (setSlotAt (setSlotAt st.gamepads fi t) ti f).map (fun x => x.slot) =
            (((st.gamepads.map (fun x => x.slot)).set fi t).set ti f) := by
          rw [setSlotAt_map_slot _ _ _ _ hset_get, setSlotAt_map_slot _ _ _ _ hgf]
        have hLf : (st.gamepads.map (fun x => x.slot))[fi] = f := by
          have := hLfi
          rw [List.getElem?_eq_getElem hLfi_lt] at this
          injection this
        have hLt : (st.gamepads.map (fun x => x.slot))[ti] = t := by
          have := hLti
          rw [List.getElem?_eq_getElem hLti_lt] at this
          injection this
        refine ⟨?_, ?_, ?_, hkeys, hkrange, ?_⟩
        · rw [hmapslot]
          exact nodup_set_swap _ fi ti hLfi_lt hLti_lt hfine hslots f t hLf hLt
        · intro g hg
          rcases mem_setSlotAt _ _ _ _ hg with hg | ⟨g0, hg0, rfl⟩
          · rcases mem_setSlotAt _ _ _ _ hg with hg | ⟨g0, hg0, rfl⟩
            · exact hrange g hg
            · exact ht6
          · exact hf6
        · rw [setSlotAt_map_name _ _ _ _ hset_get, setSlotAt_map_name _ _ _ _ hgf]
          exact hnames
        · intro p hp g hg hgp
          rcases mem_setSlotAt _ _ _ _ hg with hg | ⟨g0, hg0, rfl⟩
          · rcases mem_setSlotAt _ _ _ _ hg with hg | ⟨g0, hg0, rfl⟩
            · exact hcons p hp g hg hgp
            · exact absurd hgp.symm ((lockLookup_none_iff _ _).mp hlt p hp)
          · exact absurd hgp.symm ((lockLookup_none_iff _ _).mp hlf p hp)

/-- `lock_slot` preserves the slot invariant. -/
theorem gmLockSlot_inv (st : GMState) (s : Nat) (hinv : gmInv st) :
    gmInv (gmLockSlot st s) := by
  obtain ⟨hslots, hrange, hnames, hkeys, hkrange, hcons⟩ := hinv
  have hslotinj := List.inj_on_of_nodup_map hslots
  unfold gmLockSlot
  cases hf : st.gamepads.find? (fun g => g.slot = s) with
  | none => exact ⟨hslots, hrange, hnames, hkeys, hkrange, hcons⟩
  | some gp =>
    have hgpmem := List.mem_of_find?_eq_some hf
    have hgps : gp.slot = s := by simpa using List.find?_some hf
    have hsubf : List.Sublist (st.locked_slots.filter (fun p => p.1 ≠ s)) st.locked_slots :=
      List.filter_sublist _
    refine ⟨hslots, hrange, hnames, ?_, ?_, ?_⟩
    · simp only [List.map_cons]
      rw [List.nodup_cons]
      constructor
      · simp only [List.mem_map, not_exists]
        intro p hcontra
        have := List.mem_filter.mp hcontra.1
        have hne : p.1 ≠ s := by simpa using this.2
        exact hne hcontra.2
      · exact hkeys.sublist (hsubf.map _)
    · intro p hp
      cases hp with
      | head =>
        rw [← hgps]
        exact hrange gp hgpmem
      | tail _ hp => exact hkrange p (hsubf.mem hp)
    · intro p hp g hg hgp
      cases hp with
      | head =>
        have : g = gp := hslotinj hg hgpmem (by rw [hgp, hgps])
        rw [this]
      | tail _ hp => exact hcons p (hsubf.mem hp) g hg hgp

/-- `unlock_slot` preserves the slot invariant. -/
theorem gmUnlockSlot_inv (st : GMState) (s : Nat) (hinv : gmInv st) :
    gmInv (gmUnlockSlot st s) := by
  obtain ⟨hslots, hrange, hnames, hkeys, hkrange, hcons⟩ := hinv
  have hsubf : List.Sublist (st.locked_slots.filter (fun p => p.1 ≠ s)) st.locked_slots :=
    List.filter_sublist _
  exact ⟨hslots, hrange, hnames, hkeys.sublist (hsubf.map _),
    fun p hp => hkrange p (hsubf.mem hp),
    fun p hp g hg hgp => hcons p (hsubf.mem hp) g hg hgp⟩

/-- Any single in-precondition operation preserves the slot invariant. -/
theorem gmStep_inv (st : GMState) (op : GMOp) (hinv : gmInv st) (hok : gmOk st op) :
    gmInv (gmStep st op) := by
  cases op with
  | connect id name => exact gmConnect_inv st id name hinv hok
  | disconnect id => exact gmDisconnect_inv st id hinv
  | moveToSlot f t => exact gmMoveToSlot_inv st f t hinv hok
  | lockSlot s => exact gmLockSlot_inv st s hinv
  | unlockSlot s => exact gmUnlockSlot_inv st s hinv

/-- C6 (amended): the slot invariant — unique slots in `[0,5]` and no locked
slot occupied by a device whose name differs from its lock — holds initially
and is preserved by every sequence of gamepad-manager operations in which
(a) each connecting device's name differs from every tracked device's name,
(b) each connect that matches no locked slot finds some slot in `[0,5]`
neither occupied nor lock-reserved (the assignment never falls back to
appending), and (c) `move_to_slot` is never applied with a locked source or
destination slot — locked and occupied included, since `move_to_slot` checks
no lock and a swap onto a locked slot breaks the invariant on the locked
name's reconnect. Without these conditions the invariant fails (see the
counterexample: a seventh connect is appended at slot 6, and a swap onto a
locked occupied slot plus reconnect duplicates slot 0). -/
theorem C6_slot_invariant :
    gmInv GMState.init ∧
    (∀ (st : GMState) (ops : List GMOp), gmInv st → gmOkTrace st ops →
      gmInv (ops.foldl gmStep st)) := by
  constructor
  · refine ⟨by simp [GMState.init], by simp [GMState.init], by simp [GMState.init],
      by simp [GMState.init], by simp [GMState.init], by simp [GMState.init]⟩
  · intro st ops
    induction ops generalizing st with
    | nil => intro hinv _; exact hinv
    | cons op ops ih =>
      intro hinv htr
      exact ih (gmStep st op) (gmStep_inv st op hinv htr.1) htr.2

/-- Witness for C6: the lock-persistence scenario — connect A, lock slot 0,
disconnect A, connect B (slot 1, since 0 is reserved), reconnect A (restored
to slot 0) — satisfies the preconditions and ends in an invariant state. -/
theorem C6_slot_invariant_witness :
    gmOkTrace GMState.init
      [GMOp.connect 0 ("padA"), .lockSlot 0, .disconnect 0,
       .connect 1 ("padB"), .connect 2 ("padA")] ∧
    gmInv ([GMOp.connect 0 ("padA"), .lockSlot 0, .disconnect 0,
       .connect 1 ("padB"), .connect 2 ("padA")].foldl gmStep GMState.init) ∧
    ([GMOp.connect 0 ("padA"), .lockSlot 0, .disconnect 0,
       .connect 1 ("padB"), .connect 2 ("padA")].foldl gmStep
        GMState.init).gamepads.map (fun g => (g.name, g.slot)) =
      [("padB", 1), ("padA", 0)] := by
  have htr : gmOkTrace GMState.init
      [GMOp.connect 0 ("padA"), .lockSlot 0, .disconnect 0,
       .connect 1 ("padB"), .connect 2 ("padA")] := by decide
  refine ⟨htr, C6_slot_invariant.2 GMState.init _ C6_slot_invariant.1 htr, by decide⟩

/-- C6 counterexample, two failure modes of the unconditional claim.
(i) Seven simultaneous connects with distinct names put the seventh gamepad
at slot 6, outside `[0,5]` (`first_available_slot` falls back to
`gamepads.len()`). (ii) Each connect of the trace qA, lock 0, qB,
move 1→0, disconnect qA, reconnect qA meets the fresh-name and no-fallback
preconditions, and the move's destination slot 0 is locked but OCCUPIED (a
swap, not a move onto a locked empty slot) — yet the reconnect of qA is
steered to its locked slot 0 while qB sits there, leaving two devices in
slot 0. So restricting only moves onto locked empty slots is not enough;
`move_to_slot` checks no lock at all, and the invariant needs moves to avoid
locked slots altogether (precondition (c) of the amended claim). -/
theorem C6_slot_range_cex :
    ((([GMOp.connect 0 ("p0"), .connect 1 ("p1"), .connect 2 ("p2"), .connect 3 ("p3"),
       .connect 4 ("p4"), .connect 5 ("p5"), .connect 6 ("p6")].foldl gmStep
        GMState.init).gamepads.map (fun g => g.slot)) = [0, 1, 2, 3, 4, 5, 6] ∧
     ¬(∀ g ∈ ([GMOp.connect 0 ("p0"), .connect 1 ("p1"), .connect 2 ("p2"), .connect 3 ("p3"),
       .connect 4 ("p4"), .connect 5 ("p5"), .connect 6 ("p6")].foldl gmStep
        GMState.init).gamepads, g.slot < 6)) ∧
    (gmOk ([GMOp.connect 0 ("qA"), .lockSlot 0].foldl gmStep GMState.init)
        (.connect 1 ("qB")) ∧
     (∃ g ∈ ([GMOp.connect 0 ("qA"), .lockSlot 0, .connect 1 ("qB")].foldl gmStep
        GMState.init).gamepads, g.slot = 0) ∧
     gmOk ([GMOp.connect 0 ("qA"), .lockSlot 0, .connect 1 ("qB"), .moveToSlot 1 0,
        .disconnect 0].foldl gmStep GMState.init) (.connect 2 ("qA")) ∧
     ([GMOp.connect 0 ("qA"), .lockSlot 0, .connect 1 ("qB"), .moveToSlot 1 0,
        .disconnect 0, .connect 2 ("qA")].foldl gmStep GMState.init).gamepads.map
        (fun g => (g.name, g.slot)) = [("qB", 0), ("qA", 0)] ∧
     ¬(([GMOp.connect 0 ("qA"), .lockSlot 0, .connect 1 ("qB"), .moveToSlot 1 0,
        .disconnect 0, .connect 2 ("qA")].foldl gmStep GMState.init).gamepads.map
        (fun g => g.slot)).Nodup) := by
  refine ⟨⟨by decide, by decide⟩, by decide, by decide, by decide, by decide, by decide⟩

/-! ## TCP error record theorems (C7) -/

/-- A well-formed length-prefixed string: `u16 BE` length then the bytes. -/
def lenPrefixed (s : List Nat) : List Nat := [s.length / 256, s.length % 256] ++ s

/-- `getD` past a prefix. -/
theorem getD_append_offset (a l : List Nat) (n : Nat) :
    (a ++ l).getD (a.length + n) 0 = l.getD n 0 := by
  induction a with
  | nil => simp
  | cons x a ih =>
    simp only [List.cons_append, List.length_cons]
    rw [show a.length + 1 + n = (a.length + n) + 1 from by omega, List.getD_cons_succ]
    exact ih

/-- Reading a well-formed length-prefixed string at its exact offset. -/
theorem read_prefixed_string_at (data a s rest : List Nat)
    (hdata : data = a ++ lenPrefixed s ++ rest) (h : s.length < 65536)
    (off : Nat) (hoff : off = a.length) :
    read_prefixed_string data off = some (trimEnd s, off + 2 + s.length) := by
  subst hdata
  subst hoff
  have hlen : (a ++ lenPrefixed s ++ rest).length = a.length + 2 + s.length + rest.length := by
    simp [lenPrefixed]
    omega
  unfold read_prefixed_string
  rw [if_neg (by rw [hlen]; omega)]
  have hg0 : (a ++ lenPrefixed s ++ rest).getD a.length 0 = s.length / 256 := by
    rw [List.append_assoc, ← Nat.add_zero a.length, getD_append_offset]
    rfl
  have hg1 : (a ++ lenPrefixed s ++ rest).getD (a.length + 1) 0 = s.length % 256 := by
    rw [List.append_assoc, getD_append_offset]
    rfl
  rw [hg0, hg1]
  have hbe : be16 (s.length / 256) (s.length % 256) = s.length := by
    unfold be16
    omega
  rw [hbe]
  rw [if_neg (by rw [hlen]; omega)]
  have hsplit : a ++ lenPrefixed s ++ rest =
      (a ++ [s.length / 256, s.length % 256]) ++ (s ++ rest) := by
    simp [lenPrefixed, List.append_assoc]
  have hdrop : ((a ++ lenPrefixed s ++ rest).drop (a.length + 2)) = s ++ rest := by
    rw [hsplit, List.drop_left' (by simp)]
  rw [hdrop, List.take_left' rfl]

/-- Modelled from the spec: the documented message composition for `0x0B`
records — `details [@ location][\n callstack]`, each part appended only when
non-empty (mirroring the format strings of `read_console_stream`). -/
def composeError (dd ll cc : List Nat) : List Nat :=
  let message := dd
  let message := if ll ≠ [] then message ++ [32, 64, 32] ++ ll else message
  if cc ≠ [] then message ++ [10] ++ cc else message

/-- `getD` within a prefix. -/
theorem getD_append_left (a l : List Nat) (n : Nat) (h : n < a.length) :
    (a ++ l).getD n 0 = a.getD n 0 := by
  rw [List.getD_eq_getElem?_getD, List.getD_eq_getElem?_getD,
    List.getElem?_append_left h]

/-- C7: TCP `0x0B` error records. With a full 13-byte fixed header and three
well-formed length-prefixed strings, the emitted console entry has
`isError = (flags & 0x01) ≠ 0` and message `details [@ location][\n callstack]`
(empty compositions are suppressed); with 6 ≤ payload < 13 bytes the remainder
after timestamp and sequence is emitted stdout-shaped with `isError = true`. -/
theorem C7_error_record :
    (∀ (h13 dd ll cc extra : List Nat), h13.length = 13 →
      dd.length < 65536 → ll.length < 65536 → cc.length < 65536 →
      consoleMessageOf (0x0B ::
          (h13 ++ lenPrefixed dd ++ lenPrefixed ll ++ lenPrefixed cc ++ extra)) =
        (if composeError (trimEnd dd) (trimEnd ll) (trimEnd cc) ≠ [] then
          some { timestamp := be32 (h13.getD 0 0) (h13.getD 1 0) (h13.getD 2 0) (h13.getD 3 0),
                 message := composeError (trimEnd dd) (trimEnd ll) (trimEnd cc),
                 is_error := (h13.getD 12 0) &&& 0x01 != 0,
                 sequence := be16 (h13.getD 4 0) (h13.getD 5 0) }
         else none)) ∧
    (∀ data : List Nat, 6 ≤ data.length → data.length < 13 →
      consoleMessageOf (0x0B :: data) =
        (if trimEnd (data.drop 6) ≠ [] then
          some { timestamp := be32 (data.getD 0 0) (data.getD 1 0) (data.getD 2 0) (data.getD 3 0),
                 message := trimEnd (data.drop 6), is_error := true,
                 sequence := be16 (data.getD 4 0) (data.getD 5 0) }
         else none)) := by
  constructor
  · intro h13 dd ll cc extra hh hd hl hc
    have hlen13 : 13 ≤ (h13 ++ lenPrefixed dd ++ lenPrefixed ll ++ lenPrefixed cc ++
        extra).length := by
      simp [lenPrefixed, hh]
    have hdet := read_prefixed_string_at
      (h13 ++ lenPrefixed dd ++ lenPrefixed ll ++ lenPrefixed cc ++ extra)
      h13 dd (lenPrefixed ll ++ lenPrefixed cc ++ extra)
      (by simp [List.append_assoc]) hd 13 hh.symm
    have hloc := read_prefixed_string_at
      (h13 ++ lenPrefixed dd ++ lenPrefixed ll ++ lenPrefixed cc ++ extra)
      (h13 ++ lenPrefixed dd) ll (lenPrefixed cc ++ extra)
      (by simp [List.append_assoc]) hl (13 + 2 + dd.length)
      (by simp [lenPrefixed, hh]; omega)
    have hcs := read_prefixed_string_at
      (h13 ++ lenPrefixed dd ++ lenPrefixed ll ++ lenPrefixed cc ++ extra)
      (h13 ++ lenPrefixed dd ++ lenPrefixed ll) cc extra
      (by simp [List.append_assoc]) hc (13 + 2 + dd.length + 2 + ll.length)
      (by simp [lenPrefixed, hh]; omega)
    have hg : ∀ n, n < 13 →
        (h13 ++ lenPrefixed dd ++ lenPrefixed ll ++ lenPrefixed cc ++ extra).getD n 0 =
          h13.getD n 0 := by
      intro n hn
      rw [List.append_assoc, List.append_assoc, List.append_assoc,
        getD_append_left _ _ _ (by omega)]
    simp only [consoleMessageOf, if_true, if_false]
    rw [if_pos hlen13]
    simp only [hdet, hloc, hcs, hg 0 (by omega), hg 1 (by omega), hg 2 (by omega),
      hg 3 (by omega), hg 4 (by omega), hg 5 (by omega), hg 12 (by omega),
      composeError, Option.map_some, Option.getD_some]
    rw [if_neg (show ¬(11 = 12) by decide)]
    simp
  · intro data h6 h13
    simp only [consoleMessageOf, if_true, if_false]
    rw [if_neg (show ¬(11 = 12) by decide),
      if_neg (show ¬ 13 ≤ data.length from by omega), if_pos h6]

/-- Witness for C7: the full-header branch on the concrete record with
timestamp bytes 0, sequence 1, flags 1, details "NullPointer", location
"Robot.java:42", callstack "at foo\nat bar" yields the error entry with
message "NullPointer @ Robot.java:42\nat foo\nat bar". -/
theorem C7_error_record_witness :
    consoleMessageOf (0x0B ::
        ([0, 0, 0, 0, 0, 1, 0, 0, 0, 0, 0, 0, 1] ++
          lenPrefixed [78, 117, 108, 108, 80, 111, 105, 110, 116, 101, 114] ++
          lenPrefixed [82, 111, 98, 111, 116, 46, 106, 97, 118, 97, 58, 52, 50] ++
          lenPrefixed [97, 116, 32, 102, 111, 111, 10, 97, 116, 32, 98, 97, 114] ++ [])) =
      some { timestamp := 0,
             message := [78, 117, 108, 108, 80, 111, 105, 110, 116, 101, 114,
                         32, 64, 32,
                         82, 111, 98, 111, 116, 46, 106, 97, 118, 97, 58, 52, 50,
                         10,
                         97, 116, 32, 102, 111, 111, 10, 97, 116, 32, 98, 97, 114],
             is_error := true,
             sequence := 1 } := by
  rw [C7_error_record.left [0, 0, 0, 0, 0, 1, 0, 0, 0, 0, 0, 0, 1]
      [78, 117, 108, 108, 80, 111, 105, 110, 116, 101, 114]
      [82, 111, 98, 111, 116, 46, 106, 97, 118, 97, 58, 52, 50]
      [97, 116, 32, 102, 111, 111, 10, 97, 116, 32, 98, 97, 114] []
      (by decide) (by decide) (by decide) (by decide)]
  decide

end DriveStation
